import Mathlib

/-!
Verification development for the `jpeg2000` Rust workspace (crates `jpc` and
`jp2`).  Each Rust function relevant to the properties below is translated to
an executable Lean definition:

* machine integers become `Nat`/`Int`; Rust `u8` arithmetic that can wrap is
  written with an explicit `% 256` (debug builds would panic at the same
  point, and no theorem below depends on the wrapped value being meaningful);
* Rust truncating division/remainder (`/`, `%` on `i32`) become `Int.tdiv` /
  `Int.tmod`; `f64` expressions of the shape `(a / 2.0).floor()` applied to
  integer values become `Int.fdiv a 2`, and `.ceil()` becomes
  `Int.fdiv (a + 1) 2` (these are exact for the integer data handled here);
* fallible operations return `Option`/`Except`; a Rust `panic!`, a failed
  `assert!` and an arithmetic-underflow panic are distinguished error values.

Sections follow the crates: bit reader, tag tree, code-block decoder and DWT
from `src/jpc/src`, then the JP2 box parser from `src/jp2/src/lib.rs`.
Theorems about the claims come after all definitions.
-/

deriving instance DecidableEq for Except

namespace Jpc

/-! ## Bit reader (`src/jpc/src/bit_reader.rs`) -/

/-- State of `BitReader`: the bytes not yet pulled into the one-byte buffer,
the buffered byte `last_byte`, the bit offset inside it, and the running
`bits_read` counter. -/
structure BitReader where
  input : List Nat
  last_byte : Nat
  offset : Nat
  bits_read : Nat
deriving DecidableEq

/-- `BitReader::new` reads the first byte eagerly and fails on empty input. -/
def BitReader.new (bytes : List Nat) : Option BitReader :=
  match bytes with
  | [] => none
  | b :: rest => some { input := rest, last_byte := b, offset := 0, bits_read := 0 }

/-- `BitReader::next_bit`: count the bit, refill the buffer when `offset == 8`,
then return bit `7 - offset` of the buffered byte (MSB first). -/
def BitReader.next_bit (r : BitReader) : Option (Bool × BitReader) :=
  let counted := r.bits_read + 1
  if r.offset = 8 then
    match r.input with
    | [] => none
    | b :: rest =>
        some (((b >>> 7) &&& 1) = 1,
          { input := rest, last_byte := b, offset := 1, bits_read := counted })
  else
    some (((r.last_byte >>> (7 - r.offset)) &&& 1) = 1,
      { r with offset := r.offset + 1, bits_read := counted })

/-- Loop body of `BitReader::take`: `out` is the `u8` accumulator, so each
step is `out * 2 + bit` reduced mod `2^8` (a debug build would panic at the
first wrapping step instead). -/
def BitReader.takeAux : Nat → Nat → BitReader → Option (Nat × BitReader)
  | 0, out, r => some (out, r)
  | n + 1, out, r =>
    match r.next_bit with
    | none => none
    | some (b, r') => BitReader.takeAux n ((out * 2 + (if b then 1 else 0)) % 256) r'

/-- `BitReader::take(arg)`: `arg` iterations of `out = out * 2 + next_bit`,
on a `u8` accumulator. -/
def BitReader.take (n : Nat) (r : BitReader) : Option (Nat × BitReader) :=
  BitReader.takeAux n 0 r

/-- The eight bits of a byte, most significant first (specification-side
view used to state what the reader returns). -/
def byteBits (b : Nat) : List Bool :=
  (List.range 8).map (fun i => ((b >>> (7 - i)) &&& 1) = 1)

/-- The stream of bits still available to a reader: the unconsumed bits of
the buffered byte followed by the bits of the remaining input bytes. -/
def BitReader.bits (r : BitReader) : List Bool :=
  (byteBits r.last_byte).drop r.offset ++ (r.input.map byteBits).flatten

/-- The unsigned integer denoted by a bit string read MSB-first. -/
def natOfBits (l : List Bool) : Nat :=
  l.foldl (fun a b => a * 2 + (if b then 1 else 0)) 0

/-! ## Tag tree (`src/jpc/src/tag_tree.rs`) -/

/-- Failure modes of the tag-tree decoder: a truncated bit stream
(`io::Error` from the bit reader), a failed `assert!`, and a `panic!` or
`usize` underflow. -/
inductive TTErr
  | truncated
  | assertFailed
  | panicked
deriving DecidableEq

/-- The two-dimensional index type `I2` (crate module `shared`, used by the
tag tree with `u32` fields). -/
structure I2 where
  x : Nat
  y : Nat
deriving DecidableEq

/-- `TagTreeNode`: how much is known about one node of the tag tree. -/
inductive TagTreeNode
  | SeeParent
  | AtLeast (v : Nat)
  | Value (v : Nat)
deriving DecidableEq

/-- `TagTreeDecoder`: `levels` is the list of `(width, nodes)` pairs, level 0
(the root) first. -/
structure TagTreeDecoder where
  max_depth : Nat
  levels : List (Nat × List TagTreeNode)
  item_count : Nat
deriving DecidableEq

/-- The `while mw > 1 || mh > 1` loop of `TagTreeDecoder::new`, producing the
levels in push order (widest first) together with the depth count.
`usize::div_ceil(2)` is `(n + 1) / 2`. -/
def newLevelsF : Nat → Nat → Nat → List (Nat × List TagTreeNode) × Nat
  | 0, _, _ => ([], 0)
  | fuel + 1, mw, mh =>
    if mw > 1 ∨ mh > 1 then
      let w := max mw 1
      let size := w * max mh 1
      let rest := newLevelsF fuel ((mw + 1) / 2) ((mh + 1) / 2)
      ((w, List.replicate size TagTreeNode.SeeParent) :: rest.1, rest.2 + 1)
    else ([], 0)

/-- The loop bound `mw + mh` strictly decreases while the condition holds, so
`newLevelsF` with that fuel runs the loop to completion (a fuel of zero forces
`mw = mh = 0`, where the loop would not run anyway). -/
def newLevels (mw mh : Nat) : List (Nat × List TagTreeNode) × Nat :=
  newLevelsF (mw + mh) mw mh

/-- `TagTreeDecoder::new`: build the pyramid, append the root `AtLeast 0`
level and reverse so that level 0 is the root. -/
def TagTreeDecoder.new (width height : Nat) : TagTreeDecoder :=
  let built := newLevels width height
  { max_depth := built.2
    levels := (1, [TagTreeNode.AtLeast 0]) :: built.1.reverse
    item_count := width * height }

/-- `TagTreeDecoder::node`: look a node up by level and 2-D index (the source
indexes `vals[y * width + x]` and would panic out of bounds; the embedding
returns the default `SeeParent` there, a case no in-range use reaches). -/
def TagTreeDecoder.node (t : TagTreeDecoder) (idx : I2) (level : Nat) : TagTreeNode :=
  match t.levels[level]? with
  | none => TagTreeNode.SeeParent
  | some (w, vals) => (vals[idx.y * w + idx.x]?).getD TagTreeNode.SeeParent

/-- `TagTreeDecoder::node_mut` followed by an assignment: replace the node at
one level/index (out-of-range writes are dropped, matching `List.set`). -/
def TagTreeDecoder.setNode (t : TagTreeDecoder) (idx : I2) (level : Nat)
    (n : TagTreeNode) : TagTreeDecoder :=
  match t.levels[level]? with
  | none => t
  | some (w, vals) =>
    { t with levels := t.levels.set level (w, vals.set (idx.y * w + idx.x) n) }

/-- The `while partial <= bound` loop at the end of
`TagTreeDecoder::read_until_bound`: consume zero bits until a one bit accepts
the current value, or the bound is passed.  Returns the node that the source
writes back and then re-reads. -/
def readLoopF (t : TagTreeDecoder) (idx : I2) (level bound : Nat) :
    Nat → Nat → BitReader → Except TTErr (TagTreeNode × TagTreeDecoder × BitReader)
  | 0, cur, br =>
    Except.ok (TagTreeNode.AtLeast cur, t.setNode idx level (TagTreeNode.AtLeast cur), br)
  | fuel + 1, cur, br =>
    if cur ≤ bound then
      match br.next_bit with
      | none => Except.error TTErr.truncated
      | some (b, br') =>
        if b then
          Except.ok (TagTreeNode.Value cur, t.setNode idx level (TagTreeNode.Value cur), br')
        else readLoopF t idx level bound fuel (cur + 1) br'
    else
      Except.ok (TagTreeNode.AtLeast cur, t.setNode idx level (TagTreeNode.AtLeast cur), br)

/-- The loop runs while `cur ≤ bound` and `cur` grows by one per iteration, so
`bound + 1 - cur` iterations of fuel run it to completion (at fuel zero the
condition is already false and both return the `AtLeast` exit). -/
def readLoop (t : TagTreeDecoder) (idx : I2) (level : Nat) (bound cur : Nat)
    (br : BitReader) : Except TTErr (TagTreeNode × TagTreeDecoder × BitReader) :=
  readLoopF t idx level bound (bound + 1 - cur) cur br

/-- `TagTreeDecoder::read_until_bound`, recursing to the parent level when the
node is `SeeParent`.  A `SeeParent` root would compute `level - 1` on a
`usize` 0 (a panic); the parent's `AtLeast` is returned only after the
source's `assert!(v > bound)`. -/
def read_until_bound (level : Nat) (t : TagTreeDecoder) (idx : I2) (bound : Nat)
    (br : BitReader) : Except TTErr (TagTreeNode × TagTreeDecoder × BitReader) :=
  match t.node idx level, level with
    | TagTreeNode.Value v, _ => Except.ok (TagTreeNode.Value v, t, br)
    | TagTreeNode.AtLeast v, _ => readLoop t idx level bound v br
    | TagTreeNode.SeeParent, 0 => Except.error TTErr.panicked
    | TagTreeNode.SeeParent, l + 1 =>
      match read_until_bound l t (I2.mk (idx.x / 2) (idx.y / 2)) bound br with
      | Except.error e => Except.error e
      | Except.ok (TagTreeNode.SeeParent, _, _) => Except.error TTErr.panicked
      | Except.ok (TagTreeNode.AtLeast v, t', br') =>
        if v > bound then Except.ok (TagTreeNode.AtLeast v, t', br')
        else Except.error TTErr.assertFailed
      | Except.ok (TagTreeNode.Value v, t', br') => readLoop t' idx (l + 1) bound v br'

/-- The `u32::MAX` bound used by `TagTreeDecoder::read`. -/
def U32MAX : Nat := 2 ^ 32 - 1

/-- `TagTreeDecoder::read`: read until the unbounded bound, expecting a
terminal `Value` (anything else is the source's `panic!`). -/
def TagTreeDecoder.read (t : TagTreeDecoder) (idx : I2) (br : BitReader) :
    Except TTErr (Nat × TagTreeDecoder × BitReader) :=
  match read_until_bound t.max_depth t idx U32MAX br with
  | Except.ok (TagTreeNode.Value v, t', br') => Except.ok (v, t', br')
  | Except.ok _ => Except.error TTErr.panicked
  | Except.error e => Except.error e

/-- `TagTreeDecoder::query_recursize`: resolve a node without reading bits,
walking to the parent on `SeeParent` (a parent `Value` is reported as
`AtLeast`). -/
def query_recursize (t : TagTreeDecoder) (level : Nat) (idx : I2) :
    Except TTErr TagTreeNode :=
  match t.node idx level, level with
    | TagTreeNode.SeeParent, 0 => Except.error TTErr.panicked
    | TagTreeNode.SeeParent, l + 1 =>
      match query_recursize t l (I2.mk (idx.x / 2) (idx.y / 2)) with
      | Except.error e => Except.error e
      | Except.ok TagTreeNode.SeeParent => Except.error TTErr.panicked
      | Except.ok (TagTreeNode.AtLeast v) => Except.ok (TagTreeNode.AtLeast v)
      | Except.ok (TagTreeNode.Value v) => Except.ok (TagTreeNode.AtLeast v)
    | n, _ => Except.ok n

/-- `TagTreeDecoder::query_i2`. -/
def TagTreeDecoder.query_i2 (t : TagTreeDecoder) (idx : I2) : Except TTErr TagTreeNode :=
  query_recursize t t.max_depth idx

/-- `TagTreeDecoder::query_inclusion` (also re-exported by
`InclusionTagTree`): was the value decided to be below `bound`? -/
def TagTreeDecoder.query_inclusion (t : TagTreeDecoder) (idx : I2) (bound : Nat) :
    Except TTErr Bool :=
  match t.query_i2 idx with
  | Except.error e => Except.error e
  | Except.ok TagTreeNode.SeeParent => Except.error TTErr.panicked
  | Except.ok (TagTreeNode.AtLeast _) => Except.ok false
  | Except.ok (TagTreeNode.Value v) => Except.ok (decide (v < bound))

/-- `InclusionTagTree` wraps a `TagTreeDecoder`. -/
structure InclusionTagTree where
  tag_tree : TagTreeDecoder
deriving DecidableEq

/-- `InclusionTagTree::new`. -/
def InclusionTagTree.new (width height : Nat) : InclusionTagTree :=
  InclusionTagTree.mk (TagTreeDecoder.new width height)

/-- `InclusionTagTree::read_for_inclusion`: read just enough bits to decide
whether the leaf's value stays within `bound`; the two `assert!`s of the
source are the `assertFailed` branches. -/
def InclusionTagTree.read_for_inclusion (s : InclusionTagTree) (idx : I2) (bound : Nat)
    (br : BitReader) : Except TTErr (Bool × InclusionTagTree × BitReader) :=
  match read_until_bound s.tag_tree.max_depth s.tag_tree idx bound br with
  | Except.error e => Except.error e
  | Except.ok (TagTreeNode.SeeParent, _, _) => Except.error TTErr.panicked
  | Except.ok (TagTreeNode.AtLeast v, t', br') =>
    if v > bound then Except.ok (false, InclusionTagTree.mk t', br')
    else Except.error TTErr.assertFailed
  | Except.ok (TagTreeNode.Value v, t', br') =>
    if v ≤ bound then Except.ok (true, InclusionTagTree.mk t', br')
    else Except.error TTErr.assertFailed

/-- `ZeroPlaneTagTree` wraps a `TagTreeDecoder` and re-exports `read`. -/
structure ZeroPlaneTagTree where
  tag_tree : TagTreeDecoder
deriving DecidableEq

/-- `ZeroPlaneTagTree::read`. -/
def ZeroPlaneTagTree.read (s : ZeroPlaneTagTree) (idx : I2) (br : BitReader) :
    Except TTErr (Nat × ZeroPlaneTagTree × BitReader) :=
  match s.tag_tree.read idx br with
  | Except.error e => Except.error e
  | Except.ok (v, t', br') => Except.ok (v, ZeroPlaneTagTree.mk t', br')

/-- A sequence of `read_until_bound` calls at the leaf level on one shared
bit stream (the shape in which packet parsing uses the tree across layers). -/
def runReads (reads : List (I2 × Nat)) (t : TagTreeDecoder) (br : BitReader) :
    Except TTErr (TagTreeDecoder × BitReader) :=
  match reads with
  | [] => Except.ok (t, br)
  | (idx, bound) :: rest =>
    match read_until_bound t.max_depth t idx bound br with
    | Except.error e => Except.error e
    | Except.ok (_, t', br') => runReads rest t' br'

/-- Evolution order on a single tag-tree node: the stored lower bound can
only grow, and a terminal `Value` can never change again. -/
def nodeLe : TagTreeNode → TagTreeNode → Prop
  | TagTreeNode.SeeParent, _ => True
  | TagTreeNode.AtLeast v, TagTreeNode.AtLeast w => v ≤ w
  | TagTreeNode.AtLeast v, TagTreeNode.Value w => v ≤ w
  | TagTreeNode.AtLeast _, TagTreeNode.SeeParent => False
  | TagTreeNode.Value v, TagTreeNode.Value w => v = w
  | TagTreeNode.Value _, _ => False

/-- The lower bound a node state carries (`SeeParent` knows nothing). -/
def nodeLB : TagTreeNode → Nat
  | TagTreeNode.SeeParent => 0
  | TagTreeNode.AtLeast v => v
  | TagTreeNode.Value v => v

/-- All `Value` nodes stored in the tree are at most `b` (the state
invariant that non-decreasing bounds maintain). -/
def goodState (b : Nat) (t : TagTreeDecoder) : Prop :=
  ∀ p ∈ t.levels, ∀ nd ∈ p.2, ∀ v, nd = TagTreeNode.Value v → v ≤ b

/-- The node slot addressed by `(idx, level)` exists (width/height in range).
The source would panic on the lookup otherwise. -/
def validIdx (t : TagTreeDecoder) (level : Nat) (idx : I2) : Prop :=
  match t.levels[level]? with
  | none => False
  | some (w, vals) => idx.y * w + idx.x < vals.length

instance validIdx.dec (t : TagTreeDecoder) (level : Nat) (idx : I2) :
    Decidable (validIdx t level idx) :=
  match h : t.levels[level]? with
  | none => Decidable.isFalse (by simp [validIdx, h])
  | some (w, vals) =>
    decidable_of_iff (idx.y * w + idx.x < vals.length) (by simp [validIdx, h])

/-- The ancestor of `idx` that lives `k` levels above it. -/
def ancestorIdx (idx : I2) (k : Nat) : I2 :=
  I2.mk (idx.x / 2 ^ k) (idx.y / 2 ^ k)

/-- Every slot on the path from the root to the leaf `idx` exists. -/
def chainValid (t : TagTreeDecoder) (level : Nat) (idx : I2) : Prop :=
  ∀ l, l ≤ level → validIdx t l (ancestorIdx idx (level - l))

/-- Test harness for the spec's concrete 2x2 scenario: the four row-major
leaf reads of a `TagTreeDecoder::new(2, 2)` tree on the single input byte
`0b0111_0101`, each paired with the cumulative `bits_read` afterwards. -/
def ttExample2x2 : Except TTErr (List (Nat × Nat)) := do
  let t0 : TagTreeDecoder := TagTreeDecoder.new 2 2
  let b0 : BitReader := BitReader.mk [] 117 0 0
  let (v1, t1, b1) ← t0.read (I2.mk 0 0) b0
  let (v2, t2, b2) ← t1.read (I2.mk 1 0) b1
  let (v3, t3, b3) ← t2.read (I2.mk 0 1) b2
  let (v4, _, b4) ← t3.read (I2.mk 1 1) b3
  pure [(v1, b1.bits_read), (v2, b2.bits_read), (v3, b3.bits_read), (v4, b4.bits_read)]

/-! ## DWT (`src/jpc/src/dwt.rs`), specialized to `FilterType::Reversible53`

Sample values are modeled as `ℤ`: the source stores `f64`, but on integer
data every operation of the 5-3 path is of the form `(... / 2.0).floor()`
or `(... / 4.0).floor()` of an integer expression, which is exactly
`Int.fdiv _ 2` / `Int.fdiv _ 4` (one exception, flagged at
`subband_reconstruct_1d`, is unreachable in the executions the theorems
evaluate).  Coordinates stay `ℤ`; Rust `i32` division is `Int.tdiv`, and
the source's `(a as f64 / 2.0).ceil() as i32` pattern is
`Int.fdiv (a + 1) 2` (exact for integer `a`). -/

/-- The inclusive integer range `a..=b` of a Rust `for` loop. -/
def intRange (a b : ℤ) : List ℤ :=
  (List.range (b + 1 - a).toNat).map (fun k => a + k)

/-- `DwtProcessor::pse_o` (Equation F-4): map an index into `[i0, il)` by
periodic symmetric extension.  Rust `%` on `i32` is `Int.tmod`. -/
def pse_o (i i0 il : ℤ) : ℤ :=
  let len := il - i0
  if len = 0 then i0
  else
    let period := 2 * len
    let idx0 := i - i0
    let idx1 := Int.tmod (Int.tmod idx0 period + period) period
    let idx2 := if idx1 ≥ len then period - 1 - idx1 else idx1
    i0 + idx2

/-- `DwtProcessor::extend_signal_1d` (1D_EXTR): the extended signal, index
`ext_i` running from `i0 - i_left` to `il + i_right - 1`, each sample
fetched from `y` at the reflected index. -/
def extend_signal_1d (y : List ℤ) (i0 il i_left i_right : ℤ) : List ℤ :=
  (List.range ((il - i0).toNat + i_left.toNat + i_right.toNat)).map
    (fun k =>
      let ext_i := (i0 - i_left) + k
      y.getD (pse_o ext_i i0 il - i0).toNat 0)

/-- `DwtProcessor::get_extension_params_r` (Table F.2), `Reversible53` arm. -/
def get_extension_params_r (i0 il : ℤ) : ℤ × ℤ :=
  (if Int.tmod i0 2 = 0 then 1 else 2, if Int.tmod il 2 = 1 then 1 else 2)

/-- `DwtProcessor::get_extension_params_d` (Table F.8), `Reversible53` arm. -/
def get_extension_params_d (i0 il : ℤ) : ℤ × ℤ :=
  (if Int.tmod i0 2 = 0 then 2 else 1, if Int.tmod il 2 = 1 then 2 else 1)

/-- `DwtProcessor::filter_1d_53r` (1D_FILTR_5-3R, Equations F-5/F-6).  The
even-sample loop ranges come from `f64` ceil/floor of halves
(`Int.fdiv`-expressible); step 2 reads already-updated entries of `x`
through `pse_o` when a neighbour index reflects (the source computes an
`x_ext` it never uses, omitted here). -/
def filter_1d_53r (y_ext : List ℤ) (i0 il ext_offset : ℤ) : List ℤ :=
  let len := (il - i0).toNat
  let getExt := fun (i : ℤ) => y_ext.getD (i - (i0 - ext_offset)).toNat 0
  let x0 : List ℤ := List.replicate len 0
  let x1 := (intRange (Int.fdiv (i0 + 1) 2) (Int.fdiv (il - 1) 2)).foldl
    (fun (x : List ℤ) n =>
      let idx := 2 * n
      if i0 ≤ idx ∧ idx < il then
        x.set (idx - i0).toNat
          (getExt idx - Int.fdiv (getExt (idx - 1) + getExt (idx + 1) + 2) 4)
      else x) x0
  (intRange (Int.fdiv i0 2) (Int.fdiv (il - 2) 2)).foldl
    (fun (x : List ℤ) n =>
      let idx := 2 * n + 1
      if i0 ≤ idx ∧ idx < il then
        let x_2n := if i0 ≤ 2 * n ∧ 2 * n < il then x.getD (2 * n - i0).toNat 0
          else x.getD (pse_o (2 * n) i0 il - i0).toNat 0
        let x_2n_p2 := if i0 ≤ 2 * n + 2 ∧ 2 * n + 2 < il then
            x.getD (2 * n + 2 - i0).toNat 0
          else x.getD (pse_o (2 * n + 2) i0 il - i0).toNat 0
        x.set (idx - i0).toNat (getExt idx + Int.fdiv (x_2n + x_2n_p2) 2)
      else x) x1

/-- `DwtProcessor::filter_1d_53r_decomp` (1D_FILTD_5-3R, Equations
F-9/F-10).  Loop ranges use Rust `i32` division (`Int.tdiv`); the
even-sample step reads neighbours of the partially built `y` through
`get_y`, which reflects out-of-range indices with `pse_o`. -/
def filter_1d_53r_decomp (x_ext : List ℤ) (i0 il ext_offset : ℤ) : List ℤ :=
  let len := (il - i0).toNat
  let getExt := fun (i : ℤ) => x_ext.getD (i - (i0 - ext_offset)).toNat 0
  let getY := fun (y : List ℤ) (idx : ℤ) =>
    if i0 ≤ idx ∧ idx < il then y.getD (idx - i0).toNat 0
    else y.getD (pse_o idx i0 il - i0).toNat 0
  let y0 : List ℤ := List.replicate len 0
  let y1 := (intRange (Int.tdiv (i0 - 1) 2) (Int.tdiv (il - 2) 2)).foldl
    (fun (y : List ℤ) n =>
      let idx := 2 * n + 1
      if i0 ≤ idx ∧ idx < il then
        y.set (idx - i0).toNat
          (getExt idx - Int.fdiv (getExt (2 * n) + getExt (2 * n + 2)) 2)
      else y) y0
  (intRange (Int.tdiv i0 2) (Int.tdiv (il - 1) 2)).foldl
    (fun (y : List ℤ) n =>
      let idx := 2 * n
      if i0 ≤ idx ∧ idx < il then
        y.set (idx - i0).toNat
          (getExt idx + Int.fdiv (getY y (2 * n - 1) + getY y (2 * n + 1) + 2) 4)
      else y) y1

/-- `DwtProcessor::subband_reconstruct_1d` (1D_SR), `Reversible53`.  In the
odd-start single-sample case the source computes `y[0] / 2.0` in `f64`,
which is a half-integer when `y[0]` is odd; the embedding floors it.  No
execution evaluated by the theorems below reaches that branch. -/
def subband_reconstruct_1d (y : List ℤ) (i0 il : ℤ) : List ℤ :=
  if il - i0 = 1 then
    if Int.tmod i0 2 = 0 then [y.getD 0 0] else [Int.fdiv (y.getD 0 0) 2]
  else
    let p := get_extension_params_r i0 il
    let y_ext := extend_signal_1d y i0 il p.1 p.2
    filter_1d_53r y_ext i0 il p.1

/-- `DwtProcessor::subband_decompose_1d` (1D_SD), `Reversible53`. -/
def subband_decompose_1d (x : List ℤ) (i0 il : ℤ) : List ℤ :=
  if il - i0 = 1 then
    if Int.tmod i0 2 = 0 then [x.getD 0 0] else [2 * x.getD 0 0]
  else
    let p := get_extension_params_d i0 il
    let x_ext := extend_signal_1d x i0 il p.1 p.2
    filter_1d_53r_decomp x_ext i0 il p.1

/-- `Array2D<f64>`: row-major data with coordinate offsets `(u0, v0)`. -/
structure Array2D where
  data : List ℤ
  width : Nat
  height : Nat
  u0 : ℤ
  v0 : ℤ
deriving DecidableEq, Repr

/-- `Array2D::get` at absolute coordinates (in-range uses only; the source
would panic out of range, the embedding returns 0). -/
def Array2D.get (a : Array2D) (u v : ℤ) : ℤ :=
  a.data.getD ((v - a.v0).toNat * a.width + (u - a.u0).toNat) 0

/-- `Array2D::set` at absolute coordinates. -/
def Array2D.set (a : Array2D) (u v : ℤ) (q : ℤ) : Array2D :=
  { a with data := a.data.set ((v - a.v0).toNat * a.width + (u - a.u0).toNat) q }

/-- `Array2D::u1`. -/
def Array2D.u1 (a : Array2D) : ℤ := a.u0 + a.width

/-- `Array2D::v1`. -/
def Array2D.v1 (a : Array2D) : ℤ := a.v0 + a.height

/-- `Array2D::get_row`. -/
def Array2D.get_row (a : Array2D) (v : ℤ) : List ℤ :=
  (List.range a.width).map (fun c => a.data.getD ((v - a.v0).toNat * a.width + c) 0)

/-- `Array2D::set_row`. -/
def Array2D.set_row (a : Array2D) (v : ℤ) (vals : List ℤ) : Array2D :=
  let d2 := (List.range a.width).foldl
    (fun d c => d.set ((v - a.v0).toNat * a.width + c) (vals.getD c 0)) a.data
  { a with data := d2 }

/-- `Array2D::get_column`. -/
def Array2D.get_column (a : Array2D) (u : ℤ) : List ℤ :=
  (List.range a.height).map (fun r => a.data.getD (r * a.width + (u - a.u0).toNat) 0)

/-- `Array2D::set_column` (writes one slot per supplied value). -/
def Array2D.set_column (a : Array2D) (u : ℤ) (vals : List ℤ) : Array2D :=
  let d2 := (List.range vals.length).foldl
    (fun d r => d.set (r * a.width + (u - a.u0).toNat) (vals.getD r 0)) a.data
  { a with data := d2 }

/-- The four sub-bands of one decomposition level. -/
structure SubBands where
  ll : Array2D
  hl : Array2D
  lh : Array2D
  hh : Array2D
deriving DecidableEq, Repr

/-- The value `interleave_2d` places at `(u, v)` (Figure F.8): pick the
sub-band by parity, halve the coordinates with `i32` division, and fall
back to 0 outside that band's bounds. -/
def interleaveVal (sb : SubBands) (u v : ℤ) : ℤ :=
  if Int.tmod v 2 = 0 then
    if Int.tmod u 2 = 0 then
      let bu := Int.tdiv u 2
      let bv := Int.tdiv v 2
      if sb.ll.u0 ≤ bu ∧ bu < sb.ll.u1 ∧ sb.ll.v0 ≤ bv ∧ bv < sb.ll.v1 then
        sb.ll.get bu bv else 0
    else
      let bu := Int.tdiv (u - 1) 2
      let bv := Int.tdiv v 2
      if sb.hl.u0 ≤ bu ∧ bu < sb.hl.u1 ∧ sb.hl.v0 ≤ bv ∧ bv < sb.hl.v1 then
        sb.hl.get bu bv else 0
  else
    if Int.tmod u 2 = 0 then
      let bu := Int.tdiv u 2
      let bv := Int.tdiv (v - 1) 2
      if sb.lh.u0 ≤ bu ∧ bu < sb.lh.u1 ∧ sb.lh.v0 ≤ bv ∧ bv < sb.lh.v1 then
        sb.lh.get bu bv else 0
    else
      let bu := Int.tdiv (u - 1) 2
      let bv := Int.tdiv (v - 1) 2
      if sb.hh.u0 ≤ bu ∧ bu < sb.hh.u1 ∧ sb.hh.v0 ≤ bv ∧ bv < sb.hh.v1 then
        sb.hh.get bu bv else 0

/-- `DwtProcessor::interleave_2d` (2D_INTERLEAVE). -/
def interleave_2d (sb : SubBands) (u0 v0 u1 v1 : ℤ) : Array2D :=
  let width := (u1 - u0).toNat
  let height := (v1 - v0).toNat
  let d := ((List.range height).map (fun rv =>
    (List.range width).map (fun cu => interleaveVal sb (u0 + cu) (v0 + rv)))).flatten
  Array2D.mk d width height u0 v0

/-- `DwtProcessor::deinterleave_2d` (2D_DEINTERLEAVE): sub-band bounds per
Equation B-15 (`ceil` of halves), then scatter by coordinate parity. -/
def deinterleave_2d (a : Array2D) : SubBands :=
  let u0 := a.u0
  let v0 := a.v0
  let u1 := a.u1
  let v1 := a.v1
  let ll_u0 := Int.fdiv (u0 + 1) 2
  let ll_u1 := Int.fdiv (u1 + 1) 2
  let ll_v0 := Int.fdiv (v0 + 1) 2
  let ll_v1 := Int.fdiv (v1 + 1) 2
  let h_u0 := Int.fdiv u0 2
  let h_u1 := Int.fdiv u1 2
  let h_v0 := Int.fdiv v0 2
  let h_v1 := Int.fdiv v1 2
  let ll0 : Array2D := Array2D.mk
    (List.replicate ((ll_u1 - ll_u0).toNat * (ll_v1 - ll_v0).toNat) 0)
    (ll_u1 - ll_u0).toNat (ll_v1 - ll_v0).toNat ll_u0 ll_v0
  let hl0 : Array2D := Array2D.mk
    (List.replicate ((h_u1 - h_u0).toNat * (ll_v1 - ll_v0).toNat) 0)
    (h_u1 - h_u0).toNat (ll_v1 - ll_v0).toNat h_u0 ll_v0
  let lh0 : Array2D := Array2D.mk
    (List.replicate ((ll_u1 - ll_u0).toNat * (h_v1 - h_v0).toNat) 0)
    (ll_u1 - ll_u0).toNat (h_v1 - h_v0).toNat ll_u0 h_v0
  let hh0 : Array2D := Array2D.mk
    (List.replicate ((h_u1 - h_u0).toNat * (h_v1 - h_v0).toNat) 0)
    (h_u1 - h_u0).toNat (h_v1 - h_v0).toNat h_u0 h_v0
  ((intRange v0 (v1 - 1)).flatMap (fun v => (intRange u0 (u1 - 1)).map (fun u => (u, v)))).foldl
    (fun (sb : SubBands) uv =>
      let u := uv.1
      let v := uv.2
      let val := a.get u v
      if Int.tmod v 2 = 0 then
        if Int.tmod u 2 = 0 then
          { sb with ll := sb.ll.set (Int.tdiv u 2) (Int.tdiv v 2) val }
        else
          { sb with hl := sb.hl.set (Int.tdiv (u - 1) 2) (Int.tdiv v 2) val }
      else
        if Int.tmod u 2 = 0 then
          { sb with lh := sb.lh.set (Int.tdiv u 2) (Int.tdiv (v - 1) 2) val }
        else
          { sb with hh := sb.hh.set (Int.tdiv (u - 1) 2) (Int.tdiv (v - 1) 2) val })
    (SubBands.mk ll0 hl0 lh0 hh0)

/-- `DwtProcessor::horizontal_reconstruct` (HOR_SR). -/
def horizontal_reconstruct (a : Array2D) : Array2D :=
  (intRange a.v0 (a.v1 - 1)).foldl
    (fun b v => b.set_row v (subband_reconstruct_1d (b.get_row v) a.u0 a.u1)) a

/-- `DwtProcessor::vertical_reconstruct` (VER_SR). -/
def vertical_reconstruct (a : Array2D) : Array2D :=
  (intRange a.u0 (a.u1 - 1)).foldl
    (fun b u => b.set_column u (subband_reconstruct_1d (b.get_column u) a.v0 a.v1)) a

/-- `DwtProcessor::horizontal_decompose` (HOR_SD). -/
def horizontal_decompose (a : Array2D) : Array2D :=
  (intRange a.v0 (a.v1 - 1)).foldl
    (fun b v => b.set_row v (subband_decompose_1d (b.get_row v) a.u0 a.u1)) a

/-- `DwtProcessor::vertical_decompose` (VER_SD). -/
def vertical_decompose (a : Array2D) : Array2D :=
  (intRange a.u0 (a.u1 - 1)).foldl
    (fun b u => b.set_column u (subband_decompose_1d (b.get_column u) a.v0 a.v1)) a

/-- `DwtProcessor::subband_reconstruct_2d` (2D_SR). -/
def subband_reconstruct_2d (sb : SubBands) (u0 v0 u1 v1 : ℤ) : Array2D :=
  vertical_reconstruct (horizontal_reconstruct (interleave_2d sb u0 v0 u1 v1))

/-- `DwtProcessor::subband_decompose_2d` (2D_SD). -/
def subband_decompose_2d (a : Array2D) : SubBands :=
  deinterleave_2d (horizontal_decompose (vertical_decompose a))

/-- The level loop of `DwtProcessor::fdwt`, structural in the remaining
level count. -/
def fdwtAux : Nat → Array2D → List SubBands
  | 0, _ => []
  | n + 1, cur =>
    let sb := subband_decompose_2d cur
    sb :: fdwtAux n sb.ll

/-- `DwtProcessor::fdwt` (FDWT). -/
def fdwt (input : Array2D) (n_levels : Nat) : List SubBands :=
  fdwtAux n_levels input

/-- The empty placeholder array (never read by in-range executions). -/
def emptyArray2D : Array2D := { data := [], width := 0, height := 0, u0 := 0, v0 := 0 }

/-- The `for lev in (0..n_levels).rev()` loop of `DwtProcessor::idwt`:
the argument counts the levels still to reconstruct. -/
def idwtAux (all : List SubBands) : Nat → Array2D → Array2D
  | 0, cur => cur
  | k + 1, cur =>
    let bands := all.getD k (SubBands.mk emptyArray2D emptyArray2D emptyArray2D emptyArray2D)
    let lb : SubBands := { ll := cur, hl := bands.hl, lh := bands.lh, hh := bands.hh }
    let u0 := min (min (min lb.ll.u0 lb.hl.u0) lb.lh.u0) lb.hh.u0
    let v0 := min (min (min lb.ll.v0 lb.hl.v0) lb.lh.v0) lb.hh.v0
    let u1 := u0 + ((lb.ll.width : ℤ) + lb.hl.width)
    let v1 := v0 + ((lb.ll.height : ℤ) + lb.lh.height)
    let iu0 := min (lb.ll.u0 * 2) (lb.hl.u0 * 2 + 1)
    let iv0 := min (lb.ll.v0 * 2) (lb.lh.v0 * 2 + 1)
    let iu1 := iu0 + (u1 - u0)
    let iv1 := iv0 + (v1 - v0)
    idwtAux all k (subband_reconstruct_2d lb iu0 iv0 iu1 iv1)

/-- `DwtProcessor::idwt` (IDWT); `none` models the two entry `assert!`s. -/
def idwt (all : List SubBands) (n_levels : Nat) : Option Array2D :=
  if all = [] ∨ all.length ≠ n_levels then none
  else
    idwtAux all n_levels
      ((all.headD (SubBands.mk emptyArray2D emptyArray2D emptyArray2D emptyArray2D)).ll)

/-- `DwtProcessor::round_trip`: forward then inverse transform. -/
def round_trip (input : Array2D) (n_levels : Nat) : Option Array2D :=
  idwt (fdwt input n_levels) n_levels

/-! ## Code-block decoder (`src/jpc/src/code_block.rs`) -/

/-- Failure modes of the code-block decoder: a `panic!`/`todo!`/index
panic, a failed `assert!`, and a `u8` subtraction underflow. -/
inductive CBErr
  | panicked
  | assertFailed
  | underflow
deriving DecidableEq

/-- Modelled from the spec: the `coder` module is referenced by
`code_block.rs` (`crate::coder::{Decoder, RUN_LEN, UNIFORM}`) but absent
from `src/`; the spec fixes the run-length context label RUN_LEN = 17. -/
def RUN_LEN : Nat := 17

/-- Modelled from the spec: the uniform context label UNIFORM = 18 (see
`RUN_LEN`). -/
def UNIFORM : Nat := 18

/-- The `MockCoder` of the module's tests: the deterministic `Decoder`
used by every in-repo execution of the code block, a list of
`(expected context, bit)` pairs and a cursor. -/
structure MockCoder where
  exp : List (Nat × Nat)
  index : Nat
deriving DecidableEq

/-- `MockCoder::decode_bit`: running out of entries is an index panic, a
context mismatch fails the test's `assert_eq!`. -/
def MockCoder.decode_bit (m : MockCoder) (cx : Nat) : Except CBErr (Nat × MockCoder) :=
  match m.exp[m.index]? with
  | none => Except.error CBErr.panicked
  | some (exp_cx, out) =>
    if exp_cx = cx then Except.ok (out, { m with index := m.index + 1 })
    else Except.error CBErr.assertFailed

/-- `SubBand`. -/
inductive SubBand
  | LL
  | HL
  | LH
  | HH
deriving DecidableEq

/-- `Coeff`: the source stores the magnitude in an `i16` whose sign is
tracked separately in `is_negative`, so every write keeps it nonnegative;
the embedding uses `Nat` (no theorem below drives a magnitude anywhere
near `2^15`, where the source `i16` would wrap). -/
inductive Coeff
  | Significant (value : Nat) (is_negative : Bool)
  | Insignificant (bs : Nat)
deriving DecidableEq

/-- `State`. -/
inductive State
  | SignificancePropagation
  | CleanUp
  | MagnitudeRefinement
deriving DecidableEq

/-- `CoeffIndex` (`i32` coordinates). -/
structure CoeffIndex where
  y : ℤ
  x : ℤ
deriving DecidableEq

/-- `CodeBlockDecoder`; `no_passes` and `bit_plane_shift` are `u8`. -/
structure CodeBlockDecoder where
  width : ℤ
  height : ℤ
  subband : SubBand
  no_passes : Nat
  bit_plane_shift : Nat
  coefficients : List Coeff
deriving DecidableEq

/-- `CodeBlockDecoder::new` (`mb - 1` would underflow for `mb = 0`; all
uses pass `mb ≥ 1`). -/
def CodeBlockDecoder.new (width height : ℤ) (subband : SubBand)
    (no_passes mb : Nat) : CodeBlockDecoder :=
  { width := width, height := height, subband := subband,
    no_passes := no_passes, bit_plane_shift := mb - 1,
    coefficients := List.replicate (width * height).toNat (Coeff.Insignificant 255) }

/-- `CodeBlockDecoder::num_zero_bit_plane` (`u8` subtraction; in-range in
all uses). -/
def CodeBlockDecoder.num_zero_bit_plane (cb : CodeBlockDecoder) (arg : Nat) :
    CodeBlockDecoder :=
  { cb with bit_plane_shift := cb.bit_plane_shift - arg }

/-- `CodeBlockDecoder::coeff_at`: out-of-bounds reads yield
`Insignificant(u8::MAX)`. -/
def CodeBlockDecoder.coeff_at (cb : CodeBlockDecoder) (idx : CoeffIndex) : Coeff :=
  if idx.x < 0 ∨ idx.x ≥ cb.width ∨ idx.y < 0 ∨ idx.y ≥ cb.height then
    Coeff.Insignificant 255
  else (cb.coefficients.getD (cb.width * idx.y + idx.x).toNat (Coeff.Insignificant 255))

/-- A write through `CodeBlockDecoder::coeff_at_mut` (all uses are in
range). -/
def CodeBlockDecoder.setCoeff (cb : CodeBlockDecoder) (idx : CoeffIndex)
    (c : Coeff) : CodeBlockDecoder :=
  { cb with coefficients := cb.coefficients.set (cb.width * idx.y + idx.x).toNat c }

/-- `CodeBlockDecoder::is_significant`. -/
def CodeBlockDecoder.is_significant (cb : CodeBlockDecoder) (idx : CoeffIndex) : Bool :=
  if idx.x < 0 ∨ idx.x ≥ cb.width ∨ idx.y < 0 ∨ idx.y ≥ cb.height then false
  else
    match cb.coeff_at idx with
    | Coeff.Insignificant _ => false
    | Coeff.Significant _ _ => true

/-- `CodeBlockDecoder::significance_context`: count significant
neighbours and map through the sub-band's table (`HH` is a `todo!`, the
tables' catch-all arm a `panic!`). -/
def CodeBlockDecoder.significance_context (cb : CodeBlockDecoder) (idx : CoeffIndex) :
    Except CBErr Nat :=
  let x := idx.x
  let y := idx.y
  let h := (if x > 0 ∧ cb.is_significant (CoeffIndex.mk y (x - 1)) then 1 else 0) +
    (if x < cb.width - 1 ∧ cb.is_significant (CoeffIndex.mk y (x + 1)) then 1 else 0)
  let v := (if y > 0 ∧ cb.is_significant (CoeffIndex.mk (y - 1) x) then 1 else 0) +
    (if y < cb.height - 1 ∧ cb.is_significant (CoeffIndex.mk (y + 1) x) then 1 else 0)
  let d := (if x > 0 ∧ y > 0 ∧ cb.is_significant (CoeffIndex.mk (y - 1) (x - 1)) then 1 else 0) +
    (if x < cb.width - 1 ∧ y > 0 ∧ cb.is_significant (CoeffIndex.mk (y - 1) (x + 1)) then 1 else 0) +
    (if x > 0 ∧ y < cb.height - 1 ∧ cb.is_significant (CoeffIndex.mk (y + 1) (x - 1)) then 1 else 0) +
    (if x < cb.width - 1 ∧ y < cb.height - 1 ∧ cb.is_significant (CoeffIndex.mk (y + 1) (x + 1)) then 1 else 0)
  match cb.subband with
  | SubBand.LL | SubBand.LH =>
    match h, v, d with
    | 0, 0, 0 => Except.ok 0
    | 0, 0, 1 => Except.ok 1
    | 0, 0, _ => Except.ok 2
    | 0, 1, _ => Except.ok 3
    | 0, 2, _ => Except.ok 4
    | 1, 0, 0 => Except.ok 5
    | 1, 0, _ => Except.ok 6
    | 1, _, _ => Except.ok 7
    | 2, _, _ => Except.ok 8
    | _, _, _ => Except.error CBErr.panicked
  | SubBand.HL =>
    match h, v, d with
    | 0, 0, 0 => Except.ok 0
    | 0, 0, 1 => Except.ok 1
    | 0, 0, _ => Except.ok 2
    | 1, 0, _ => Except.ok 3
    | 2, 0, _ => Except.ok 4
    | 0, 1, 0 => Except.ok 5
    | 0, 1, _ => Except.ok 6
    | _, 1, _ => Except.ok 7
    | _, 2, _ => Except.ok 8
    | _, _, _ => Except.error CBErr.panicked
  | SubBand.HH => Except.error CBErr.panicked

/-- `CodeBlockDecoder::is_bit_plane_set` (`panic!` on an insignificant
coefficient; `i16 >>` is an arithmetic shift). -/
def CodeBlockDecoder.is_bit_plane_set (cb : CodeBlockDecoder) (idx : CoeffIndex) :
    Except CBErr Bool :=
  match cb.coeff_at idx with
  | Coeff.Insignificant _ => Except.error CBErr.panicked
  | Coeff.Significant value _ =>
    Except.ok (1 = (1 &&& (value >>> cb.bit_plane_shift)))

/-- `CodeBlockDecoder::make_significant`: set magnitude
`1 << bit_plane_shift`, positive (`panic!` if already significant). -/
def CodeBlockDecoder.make_significant (cb : CodeBlockDecoder) (idx : CoeffIndex) :
    Except CBErr CodeBlockDecoder :=
  match cb.coeff_at idx with
  | Coeff.Insignificant _ =>
    Except.ok (cb.setCoeff idx (Coeff.Significant (2 ^ cb.bit_plane_shift) false))
  | Coeff.Significant _ _ => Except.error CBErr.panicked

/-- `sp` and `c` of `CodeBlockDecoder::sign_context`. -/
def signSp (c : Coeff) : ℤ :=
  match c with
  | Coeff.Insignificant _ => 0
  | Coeff.Significant _ is_negative => 1 - 2 * (if is_negative then 1 else 0)

/-- `CodeBlockDecoder::sign_context`: `(context, xor)` from the
horizontal/vertical sign contributions (the catch-all `panic!` arm is
unreachable). -/
def CodeBlockDecoder.sign_context (cb : CodeBlockDecoder) (idx : CoeffIndex) :
    Except CBErr (Nat × Nat) :=
  let v0 := cb.coeff_at (CoeffIndex.mk (idx.y - 1) idx.x)
  let v1 := cb.coeff_at (CoeffIndex.mk (idx.y + 1) idx.x)
  let h0 := cb.coeff_at (CoeffIndex.mk idx.y (idx.x - 1))
  let h1 := cb.coeff_at (CoeffIndex.mk idx.y (idx.x + 1))
  let contrib := fun (a b : Coeff) =>
    let t := signSp a + signSp b
    if t > 0 then (1:ℤ) else if t < 0 then -1 else 0
  let vc := contrib v0 v1
  let hc := contrib h0 h1
  if hc = 1 ∧ vc = 1 then Except.ok (13, 0)
  else if hc = 1 ∧ vc = 0 then Except.ok (12, 0)
  else if hc = 1 ∧ vc = -1 then Except.ok (11, 0)
  else if hc = 0 ∧ vc = 1 then Except.ok (10, 0)
  else if hc = 0 ∧ vc = 0 then Except.ok (9, 0)
  else if hc = 0 ∧ vc = -1 then Except.ok (10, 1)
  else if hc = -1 ∧ vc = 1 then Except.ok (11, 1)
  else if hc = -1 ∧ vc = 0 then Except.ok (12, 1)
  else if hc = -1 ∧ vc = -1 then Except.ok (13, 1)
  else Except.error CBErr.panicked

/-- `CodeBlockDecoder::decode_sign_bit`. -/
def CodeBlockDecoder.decode_sign_bit (cb : CodeBlockDecoder) (idx : CoeffIndex)
    (mc : MockCoder) : Except CBErr (CodeBlockDecoder × MockCoder) := do
  let cxx ← cb.sign_context idx
  let (sign_bit, mc') ← mc.decode_bit cxx.1
  match cb.coeff_at idx with
  | Coeff.Significant value _ =>
    Except.ok (cb.setCoeff idx (Coeff.Significant value ((sign_bit ^^^ cxx.2) ≠ 0)), mc')
  | Coeff.Insignificant _ => Except.error CBErr.panicked

/-- `CodeBlockDecoder::significance_decode_ctx`. -/
def CodeBlockDecoder.significance_decode_ctx (cb : CodeBlockDecoder) (cx : Nat)
    (idx : CoeffIndex) (mc : MockCoder) :
    Except CBErr (Bool × CodeBlockDecoder × MockCoder) := do
  let (sig, mc') ← mc.decode_bit cx
  if sig = 1 then
    let cb' ← cb.make_significant idx
    Except.ok (true, cb', mc')
  else Except.ok (false, cb, mc')

/-- `CodeBlockDecoder::significance_decode`. -/
def CodeBlockDecoder.significance_decode (cb : CodeBlockDecoder) (idx : CoeffIndex)
    (mc : MockCoder) : Except CBErr (Bool × CodeBlockDecoder × MockCoder) := do
  match cb.coeff_at idx with
  | Coeff.Insignificant bs =>
    if bs = cb.bit_plane_shift then Except.ok (false, cb, mc)
    else do
      let cx ← cb.significance_context idx
      cb.significance_decode_ctx cx idx mc
  | Coeff.Significant _ _ => Except.error CBErr.panicked

/-- `CodeBlockDecoder::magnitude_context`. -/
def CodeBlockDecoder.magnitude_context (cb : CodeBlockDecoder) (idx : CoeffIndex) : Nat :=
  let first :=
    match cb.coeff_at idx with
    | Coeff.Significant value _ =>
      decide ((value >>> (1 + cb.bit_plane_shift)) ≠ 1)
    | Coeff.Insignificant _ => false
  if first then 16
  else
    let x := idx.x
    let y := idx.y
    let c := (if cb.is_significant (CoeffIndex.mk y (x - 1)) then 1 else 0) +
      (if cb.is_significant (CoeffIndex.mk y (x + 1)) then 1 else 0) +
      (if cb.is_significant (CoeffIndex.mk (y - 1) x) then 1 else 0) +
      (if cb.is_significant (CoeffIndex.mk (y + 1) x) then 1 else 0)
    if c > 0 then 15
    else
      let dc := (if cb.is_significant (CoeffIndex.mk (y - 1) (x - 1)) then 1 else 0) +
        (if cb.is_significant (CoeffIndex.mk (y - 1) (x + 1)) then 1 else 0) +
        (if cb.is_significant (CoeffIndex.mk (y + 1) (x - 1)) then 1 else 0) +
        (if cb.is_significant (CoeffIndex.mk (y + 1) (x + 1)) then 1 else 0)
      if dc + c > 0 then 15 else 14

/-- `CodeBlockDecoder::magnitude_decode` (`b << bit_plane_shift` is a
`u8` shift, reduced mod `2^8`). -/
def CodeBlockDecoder.magnitude_decode (cb : CodeBlockDecoder) (idx : CoeffIndex)
    (mc : MockCoder) : Except CBErr (CodeBlockDecoder × MockCoder) := do
  let cx := cb.magnitude_context idx
  let (b, mc') ← mc.decode_bit cx
  match cb.coeff_at idx with
  | Coeff.Insignificant _ => Except.error CBErr.panicked
  | Coeff.Significant value is_negative =>
    Except.ok (cb.setCoeff idx
      (Coeff.Significant (value ||| ((b <<< cb.bit_plane_shift) % 256)) is_negative), mc')

/-- The strip starts `0, 4, 8, ...` of `(0..height).step_by(4)`. -/
def stripStarts (height : ℤ) : List ℤ :=
  (List.range ((height.toNat + 3) / 4)).map (fun k => (4 * k : ℤ))

/-- The per-column body of `CodeBlockDecoder::pass_cleanup` for strip
start `by_` and column `x` (a run-length decision when the whole strip is
insignificant, then the per-coefficient loop from `by_ + offset_y`). -/
def CodeBlockDecoder.cleanupColumn (cb : CodeBlockDecoder) (mc : MockCoder)
    (by_ x : ℤ) : Except CBErr (CodeBlockDecoder × MockCoder) := do
  let count_insig := ((intRange by_ (min (by_ + 4) cb.height - 1)).filter
    (fun y => ¬cb.is_significant (CoeffIndex.mk y x))).length
  let runTail := fun (cb : CodeBlockDecoder) (mc : MockCoder) (offset_y : ℤ) =>
    (intRange (by_ + offset_y) (min (by_ + 4) cb.height - 1)).foldlM
      (fun (s : CodeBlockDecoder × MockCoder) y => do
        let idx := CoeffIndex.mk y x
        if ¬s.1.is_significant idx then
          let (newly_sig, cb', mc') ← s.1.significance_decode idx s.2
          if newly_sig then cb'.decode_sign_bit idx mc'
          else Except.ok (cb', mc')
        else Except.ok s) (cb, mc)
  if 4 = count_insig then do
    let (c4, mc1) ← mc.decode_bit RUN_LEN
    if c4 = 1 then Except.ok (cb, mc1)
    else do
      let (a, mc2) ← mc1.decode_bit UNIFORM
      let (b, mc3) ← mc2.decode_bit UNIFORM
      let c5 := 2 * a + b
      if ¬c5 < 4 then Except.error CBErr.assertFailed
      else do
        let nsi := CoeffIndex.mk (by_ + c5) x
        let cb1 ← cb.make_significant nsi
        let (cb2, mc4) ← cb1.decode_sign_bit nsi mc3
        runTail cb2 mc4 (c5 + 1)
  else runTail cb mc 0

/-- `CodeBlockDecoder::pass_cleanup`. -/
def CodeBlockDecoder.pass_cleanup (cb : CodeBlockDecoder) (mc : MockCoder) :
    Except CBErr (CodeBlockDecoder × MockCoder) :=
  (stripStarts cb.height).foldlM
    (fun (s : CodeBlockDecoder × MockCoder) by_ =>
      (intRange 0 (s.1.width - 1)).foldlM
        (fun (s : CodeBlockDecoder × MockCoder) x => s.1.cleanupColumn s.2 by_ x) s)
    (cb, mc)

/-- `CodeBlockDecoder::pass_significance`. -/
def CodeBlockDecoder.pass_significance (cb : CodeBlockDecoder) (mc : MockCoder) :
    Except CBErr (CodeBlockDecoder × MockCoder) :=
  (stripStarts cb.height).foldlM
    (fun (s : CodeBlockDecoder × MockCoder) by_ =>
      (intRange 0 (s.1.width - 1)).foldlM
        (fun (s : CodeBlockDecoder × MockCoder) x =>
          (intRange by_ (min (by_ + 4) s.1.height - 1)).foldlM
            (fun (s : CodeBlockDecoder × MockCoder) y => do
              let idx := CoeffIndex.mk y x
              if s.1.is_significant idx then Except.ok s
              else do
                let sig_ctx ← s.1.significance_context idx
                if 0 = sig_ctx then Except.ok s
                else do
                  let (newly_sig, cb', mc') ← s.1.significance_decode_ctx sig_ctx idx s.2
                  if newly_sig then cb'.decode_sign_bit idx mc'
                  else
                    Except.ok
                      ((cb'.setCoeff idx (Coeff.Insignificant cb'.bit_plane_shift)), mc')) s) s)
    (cb, mc)

/-- `CodeBlockDecoder::pass_refinement`. -/
def CodeBlockDecoder.pass_refinement (cb : CodeBlockDecoder) (mc : MockCoder) :
    Except CBErr (CodeBlockDecoder × MockCoder) :=
  (stripStarts cb.height).foldlM
    (fun (s : CodeBlockDecoder × MockCoder) by_ =>
      (intRange 0 (s.1.width - 1)).foldlM
        (fun (s : CodeBlockDecoder × MockCoder) x =>
          (intRange by_ (min (by_ + 4) s.1.height - 1)).foldlM
            (fun (s : CodeBlockDecoder × MockCoder) y => do
              let idx := CoeffIndex.mk y x
              if ¬s.1.is_significant idx then Except.ok s
              else do
                let is_bit_set ← s.1.is_bit_plane_set idx
                if is_bit_set then Except.ok s
                else s.1.magnitude_decode idx s.2) s) s)
    (cb, mc)

/-- The pass loop of `CodeBlockDecoder::decode`, structural in the
remaining pass count (`bit_plane_shift -= 1` is the `u8` decrement before
each significance pass; hitting 0 would underflow). -/
def decodeLoop : Nat → State → CodeBlockDecoder → MockCoder →
    Except CBErr (CodeBlockDecoder × MockCoder)
  | 0, _, cb, mc => Except.ok (cb, mc)
  | n + 1, st, cb, mc =>
    match st with
    | State.CleanUp => do
      let (cb', mc') ← cb.pass_cleanup mc
      decodeLoop n State.SignificancePropagation cb' mc'
    | State.SignificancePropagation =>
      if cb.bit_plane_shift = 0 then Except.error CBErr.underflow
      else do
        let cb0 := { cb with bit_plane_shift := cb.bit_plane_shift - 1 }
        let (cb', mc') ← cb0.pass_significance mc
        decodeLoop n State.MagnitudeRefinement cb' mc'
    | State.MagnitudeRefinement => do
      let (cb', mc') ← cb.pass_refinement mc
      decodeLoop n State.CleanUp cb' mc'

/-- `CodeBlockDecoder::decode`: the source hardcodes
`let no_passes = 7; // TODO` and never reads `self.no_passes`. -/
def CodeBlockDecoder.decode (cb : CodeBlockDecoder) (mc : MockCoder) :
    Except CBErr (CodeBlockDecoder × MockCoder) :=
  decodeLoop 7 State.CleanUp cb mc

/-- `CodeBlockDecoder::coefficients`. -/
def CodeBlockDecoder.coefficientsOut (cb : CodeBlockDecoder) : List ℤ :=
  cb.coefficients.map (fun c =>
    match c with
    | Coeff.Significant value is_negative =>
      if is_negative then -1 * (value : ℤ) else (value : ℤ)
    | Coeff.Insignificant _ => 0)

/-- Test harness: the mock coder of `test_cb_decode_j10a_mocked` (the J.10
LL example, 16 coding passes, 34 `(context, bit)` entries). -/
def j10aMock : MockCoder := MockCoder.mk
  [(17, 0), (18, 1), (18, 1), (9, 1), (3, 0), (3, 1), (10, 0), (3, 1), (10, 0), (15, 0),
   (0, 1), (9, 1), (4, 1), (10, 0),
   (15, 1), (15, 0), (15, 1), (16, 0), (15, 0),
   (16, 0), (16, 1), (16, 1), (16, 0), (16, 0),
   (16, 1), (16, 1), (16, 1), (16, 0), (16, 1),
   (16, 0), (16, 0), (16, 0), (16, 0), (16, 1)] 0

/-- Test harness: the 1-by-5 LL code block of `test_cb_decode_j10a_mocked`
(`no_passes = 16`, `mb = 9`, 3 zero bit-planes). -/
def j10aCb : CodeBlockDecoder :=
  (CodeBlockDecoder.new 1 5 SubBand.LL 16 9).num_zero_bit_plane 3

/-- Test harness: the 1-by-4 LH code block of `test_cb_decode_j10b_mocked`
(`no_passes = 7`, `mb = 10`, 7 zero bit-planes). -/
def j10bCb : CodeBlockDecoder :=
  (CodeBlockDecoder.new 1 4 SubBand.LH 7 10).num_zero_bit_plane 7

end Jpc

namespace Jp2

/-! ## JP2 box parser (`src/jp2/src/lib.rs`)

The reader is a byte list with a cursor (`io::Cursor`-style).  `u8` bytes
are `Nat`s; big-endian integers are folded with `beNat`.  Errors
distinguish the `io` end-of-file error (which `decode_jp2`'s loop treats
as end of input) from the `JP2Error` variants and from `panic!`s. -/

/-- Error values: `eof` is `io::ErrorKind::UnexpectedEof`, `seekFailed` a
seek before position 0, `panicked` a `panic!`/`todo!`/`unimplemented!` or
a debug-build integer underflow, and the rest are the `JP2Error`
variants raised by the decoders. -/
inductive JErr
  | eof
  | seekFailed
  | boxUnexpected
  | invalidSignature
  | unsupported
  | invalidBrand
  | notCompatible
  | boxDuplicate
  | boxMalformed
  | boxMissing
  | panicked
deriving DecidableEq

/-- The byte source: data plus cursor position. -/
structure Reader where
  data : List Nat
  pos : Nat
deriving DecidableEq

/-- `Read::read_exact` into an `n`-byte buffer. -/
def Reader.read_exact (r : Reader) (n : Nat) : Except JErr (List Nat × Reader) :=
  if r.pos + n ≤ r.data.length then
    Except.ok ((r.data.drop r.pos).take n, { r with pos := r.pos + n })
  else Except.error JErr.eof

/-- `Seek::stream_position`. -/
def Reader.stream_position (r : Reader) : Nat := r.pos

/-- `reader.seek(SeekFrom::Current(delta))`. -/
def Reader.seek_current (r : Reader) (delta : ℤ) : Except JErr Reader :=
  if (r.pos : ℤ) + delta < 0 then Except.error JErr.seekFailed
  else Except.ok { r with pos := ((r.pos : ℤ) + delta).toNat }

/-- `reader.seek(SeekFrom::End(0))`. -/
def Reader.seek_end (r : Reader) : Reader := { r with pos := r.data.length }

/-- Big-endian value of a byte string (`uN::from_be_bytes`). -/
def beNat (l : List Nat) : Nat := l.foldl (fun a b => a * 256 + b) 0

def BOX_TYPE_SIGNATURE : List Nat := [106, 80, 32, 32]
def BOX_TYPE_FILE_TYPE : List Nat := [102, 116, 121, 112]
def BOX_TYPE_HEADER : List Nat := [106, 112, 50, 104]
def BOX_TYPE_IMAGE_HEADER : List Nat := [105, 104, 100, 114]
def BOX_TYPE_BITS_PER_COMPONENT : List Nat := [98, 112, 99, 99]
def BOX_TYPE_COLOUR_SPECIFICATION : List Nat := [99, 111, 108, 114]
def BOX_TYPE_PALETTE : List Nat := [112, 99, 108, 114]
def BOX_TYPE_COMPONENT_MAPPING : List Nat := [99, 109, 97, 112]
def BOX_TYPE_CHANNEL_DEFINITION : List Nat := [99, 100, 101, 102]
def BOX_TYPE_RESOLUTION : List Nat := [114, 101, 115, 32]
def BOX_TYPE_CAPTURE_RESOLUTION : List Nat := [114, 101, 115, 99]
def BOX_TYPE_DEFAULT_DISPLAY_RESOLUTION : List Nat := [114, 101, 115, 100]
def BOX_TYPE_CONTIGUOUS_CODESTREAM : List Nat := [106, 112, 50, 99]
def BOX_TYPE_INTELLECTUAL_PROPERTY : List Nat := [106, 112, 50, 105]
def BOX_TYPE_XML : List Nat := [120, 109, 108, 32]
def BOX_TYPE_UUID : List Nat := [117, 117, 105, 100]
def BOX_TYPE_UUID_INFO : List Nat := [117, 105, 110, 102]
def BOX_TYPE_UUID_LIST : List Nat := [117, 108, 115, 116]
def BOX_TYPE_DATA_ENTRY_URL : List Nat := [117, 114, 108, 32]

def BRAND_JP2 : List Nat := [106, 112, 50, 32]
def BRAND_JPX : List Nat := [106, 112, 120, 32]

/-- `<CR><LF><0x87><LF>`. -/
def SIGNATURE_MAGIC : List Nat := [13, 10, 135, 10]

/-- `BoxTypes`. -/
inductive BoxTypes
  | Signature
  | FileType
  | Header
  | ImageHeader
  | BitsPerComponent
  | ColourSpecification
  | Palette
  | ComponentMapping
  | ChannelDefinition
  | Resolution
  | CaptureResolution
  | DefaultDisplayResolution
  | ContiguousCodestream
  | IntellectualProperty
  | Xml
  | Uuid
  | UUIDInfo
  | UUIDList
  | DataEntryURL
  | Unknown
deriving DecidableEq

/-- `BoxTypes::new`. -/
def BoxTypes.new (value : List Nat) : BoxTypes :=
  if value = BOX_TYPE_SIGNATURE then BoxTypes.Signature
  else if value = BOX_TYPE_FILE_TYPE then BoxTypes.FileType
  else if value = BOX_TYPE_HEADER then BoxTypes.Header
  else if value = BOX_TYPE_IMAGE_HEADER then BoxTypes.ImageHeader
  else if value = BOX_TYPE_BITS_PER_COMPONENT then BoxTypes.BitsPerComponent
  else if value = BOX_TYPE_COLOUR_SPECIFICATION then BoxTypes.ColourSpecification
  else if value = BOX_TYPE_PALETTE then BoxTypes.Palette
  else if value = BOX_TYPE_COMPONENT_MAPPING then BoxTypes.ComponentMapping
  else if value = BOX_TYPE_CHANNEL_DEFINITION then BoxTypes.ChannelDefinition
  else if value = BOX_TYPE_RESOLUTION then BoxTypes.Resolution
  else if value = BOX_TYPE_CAPTURE_RESOLUTION then BoxTypes.CaptureResolution
  else if value = BOX_TYPE_DEFAULT_DISPLAY_RESOLUTION then BoxTypes.DefaultDisplayResolution
  else if value = BOX_TYPE_CONTIGUOUS_CODESTREAM then BoxTypes.ContiguousCodestream
  else if value = BOX_TYPE_INTELLECTUAL_PROPERTY then BoxTypes.IntellectualProperty
  else if value = BOX_TYPE_XML then BoxTypes.Xml
  else if value = BOX_TYPE_UUID then BoxTypes.Uuid
  else if value = BOX_TYPE_UUID_INFO then BoxTypes.UUIDInfo
  else if value = BOX_TYPE_UUID_LIST then BoxTypes.UUIDList
  else if value = BOX_TYPE_DATA_ENTRY_URL then BoxTypes.DataEntryURL
  else BoxTypes.Unknown

/-- `BoxHeader`. -/
structure BoxHeader where
  box_length : Nat
  box_type : List Nat
  header_length : Nat
deriving DecidableEq

/-- `decode_box_header`: length 0 means to-EOF, 1 means an `XLBox` field
follows (`u64` value minus 16, a debug underflow below 16), 2-7 `panic!`,
otherwise subtract the 8 header bytes. -/
def decode_box_header (r : Reader) : Except JErr (BoxHeader × Reader) := do
  let (lb, r1) ← r.read_exact 4
  let v := beNat lb
  if v = 0 then do
    let (bt, r2) ← r1.read_exact 4
    Except.ok (BoxHeader.mk 0 bt 8, r2)
  else if v = 1 then do
    let (bt, r2) ← r1.read_exact 4
    let (xl, r3) ← r2.read_exact 8
    if beNat xl < 16 then Except.error JErr.panicked
    else Except.ok (BoxHeader.mk (beNat xl - 16) bt 16, r3)
  else if v ≤ 7 then Except.error JErr.panicked
  else do
    let (bt, r2) ← r1.read_exact 4
    Except.ok (BoxHeader.mk (v - 8) bt 8, r2)

/-- `SignatureBox`. -/
structure SignatureBox where
  length : Nat
  offset : Nat
deriving DecidableEq

/-- `SignatureBox::decode`: sets `length = 12` and checks only the four
magic bytes (the declared box length is never consulted). -/
def SignatureBox.decode (b : SignatureBox) (r : Reader) :
    Except JErr (SignatureBox × Reader) := do
  let b1 := { b with length := 12 }
  let (buffer, r1) ← r.read_exact 4
  if buffer ≠ SIGNATURE_MAGIC then Except.error JErr.invalidSignature
  else Except.ok (b1, r1)

/-- `FileTypeBox`. -/
structure FileTypeBox where
  length : Nat
  offset : Nat
  brand : List Nat
  min_version : List Nat
  compatibility_list : List (List Nat)
deriving DecidableEq

/-- The `while size > 0` compatibility-list loop of
`FileTypeBox::decode`. -/
def readCLs : Nat → List (List Nat) → Reader →
    Except JErr (List (List Nat) × Reader)
  | 0, acc, r => Except.ok (acc, r)
  | size + 1, acc, r => do
    let (buffer, r1) ← r.read_exact 4
    readCLs size (acc ++ [buffer]) r1

/-- `FileTypeBox::decode`: brand `jpx ` is `Unsupported`, any other
non-`jp2 ` brand `InvalidBrand`; `(length - 8) / 4` compatibility entries
(`u64` subtraction, a debug underflow below 8); `jp2 ` must occur. -/
def FileTypeBox.decode (b : FileTypeBox) (r : Reader) :
    Except JErr (FileTypeBox × Reader) := do
  let (brand, r1) ← r.read_exact 4
  if brand = BRAND_JPX then Except.error JErr.unsupported
  else if brand ≠ BRAND_JP2 then Except.error JErr.invalidBrand
  else do
    let (minv, r2) ← r1.read_exact 4
    if b.length < 8 then Except.error JErr.panicked
    else do
      let (cls, r3) ← readCLs ((b.length - 8) / 4) b.compatibility_list r2
      if ¬BRAND_JP2 ∈ cls then Except.error JErr.notCompatible
      else
        let b1 := { b with brand := brand, min_version := minv, compatibility_list := cls }
        Except.ok (b1, r3)

/-- `ImageHeaderBox`. -/
structure ImageHeaderBox where
  length : Nat
  offset : Nat
  height : List Nat
  width : List Nat
  components_num : List Nat
  components_bits : List Nat
  compression_type : List Nat
  colourspace_unknown : List Nat
  intellectual_property : List Nat
deriving DecidableEq

/-- The all-zero `ImageHeaderBox::default()`. -/
def ImageHeaderBox.default : ImageHeaderBox :=
  ImageHeaderBox.mk 0 0 [0, 0, 0, 0] [0, 0, 0, 0] [0, 0] [0] [0] [0] [0]

/-- `ImageHeaderBox::decode`: seven fixed-size fields. -/
def ImageHeaderBox.decode (b : ImageHeaderBox) (r : Reader) :
    Except JErr (ImageHeaderBox × Reader) := do
  let (h, r1) ← r.read_exact 4
  let (w, r2) ← r1.read_exact 4
  let (cn, r3) ← r2.read_exact 2
  let (cb, r4) ← r3.read_exact 1
  let (ct, r5) ← r4.read_exact 1
  let (cu, r6) ← r5.read_exact 1
  let (ip, r7) ← r6.read_exact 1
  let b1 := { b with height := h, width := w, components_num := cn, components_bits := cb }
  let b2 := { b1 with compression_type := ct, colourspace_unknown := cu, intellectual_property := ip }
  Except.ok (b2, r7)

/-- `EnumeratedColourSpaces` (payload integers are the decoded `u32`s). -/
inductive EnumeratedColourSpaces
  | BiLevel
  | YCbCr1
  | YCbCr2
  | YCbCr3
  | PhotoYCC
  | CMY
  | CMYK
  | YCCK
  | CIELab (rl ol ra oa rb ob il : Nat)
  | BiLevel2
  | sRGB
  | Greyscale
  | sYCC
  | CIEJab (rj oj ra oa rb ob : Nat)
  | esRGB
  | ROMMRGB
  | YPbPr112560
  | YPbPr125050
  | esYCC
  | scRGB
  | scRGBGrayScale
  | Reserved
deriving DecidableEq

/-- `EnumeratedColourSpaces::decode`: a 4-byte code, with extra payload
for CIELab (seven `u32`s) and CIEJab (six `u32`s); unmatched codes are
`Reserved`. -/
def EnumeratedColourSpaces.decode (r : Reader) :
    Except JErr (EnumeratedColourSpaces × Reader) := do
  let (enumcs, r1) ← r.read_exact 4
  let code := beNat enumcs
  if enumcs ≠ [0, 0, 0, code % 256] then Except.ok (EnumeratedColourSpaces.Reserved, r1)
  else if code = 0 then Except.ok (EnumeratedColourSpaces.BiLevel, r1)
  else if code = 1 then Except.ok (EnumeratedColourSpaces.YCbCr1, r1)
  else if code = 3 then Except.ok (EnumeratedColourSpaces.YCbCr2, r1)
  else if code = 4 then Except.ok (EnumeratedColourSpaces.YCbCr3, r1)
  else if code = 9 then Except.ok (EnumeratedColourSpaces.PhotoYCC, r1)
  else if code = 11 then Except.ok (EnumeratedColourSpaces.CMY, r1)
  else if code = 12 then Except.ok (EnumeratedColourSpaces.CMYK, r1)
  else if code = 13 then Except.ok (EnumeratedColourSpaces.YCCK, r1)
  else if code = 14 then do
    let (rl, r2) ← r1.read_exact 4
    let (ol, r3) ← r2.read_exact 4
    let (ra, r4) ← r3.read_exact 4
    let (oa, r5) ← r4.read_exact 4
    let (rb, r6) ← r5.read_exact 4
    let (ob, r7) ← r6.read_exact 4
    let (il, r8) ← r7.read_exact 4
    Except.ok (EnumeratedColourSpaces.CIELab (beNat rl) (beNat ol) (beNat ra)
      (beNat oa) (beNat rb) (beNat ob) (beNat il), r8)
  else if code = 15 then Except.ok (EnumeratedColourSpaces.BiLevel2, r1)
  else if code = 16 then Except.ok (EnumeratedColourSpaces.sRGB, r1)
  else if code = 17 then Except.ok (EnumeratedColourSpaces.Greyscale, r1)
  else if code = 18 then Except.ok (EnumeratedColourSpaces.sYCC, r1)
  else if code = 19 then do
    let (rj, r2) ← r1.read_exact 4
    let (oj, r3) ← r2.read_exact 4
    let (ra, r4) ← r3.read_exact 4
    let (oa, r5) ← r4.read_exact 4
    let (rb, r6) ← r5.read_exact 4
    let (ob, r7) ← r6.read_exact 4
    Except.ok (EnumeratedColourSpaces.CIEJab (beNat rj) (beNat oj) (beNat ra)
      (beNat oa) (beNat rb) (beNat ob), r7)
  else if code = 20 then Except.ok (EnumeratedColourSpaces.esRGB, r1)
  else if code = 21 then Except.ok (EnumeratedColourSpaces.ROMMRGB, r1)
  else if code = 22 then Except.ok (EnumeratedColourSpaces.YPbPr112560, r1)
  else if code = 23 then Except.ok (EnumeratedColourSpaces.YPbPr125050, r1)
  else if code = 24 then Except.ok (EnumeratedColourSpaces.esYCC, r1)
  else if code = 25 then Except.ok (EnumeratedColourSpaces.scRGB, r1)
  else if code = 26 then Except.ok (EnumeratedColourSpaces.scRGBGrayScale, r1)
  else Except.ok (EnumeratedColourSpaces.Reserved, r1)

/-- `ColourSpecificationMethods`. -/
inductive ColourMethod
  | EnumeratedColourSpace (code : EnumeratedColourSpaces)
  | RestrictedICCProfile (profile_data : List Nat)
  | AnyICCProfile (profile_data : List Nat)
  | VendorColourMethod (vendor_defined_code vendor_parameters : List Nat)
  | ParameterizedColourspace (colour_primaries transfer_characteristics
      matrix_coefficients : Nat) (video_full_range : Bool)
  | Reserved (value : Nat)
deriving DecidableEq

/-- `ColourSpecificationBox`. -/
structure ColourSpecificationBox where
  length : Nat
  offset : Nat
  method : ColourMethod
  precedence : List Nat
  colourspace_approximation : List Nat
deriving DecidableEq

/-- `ColourSpecificationBox::decode`: METH, PREC-and-APPROX bytes, then
the method payload (ICC/vendor sizes come from the box length, a debug
underflow when too small). -/
def ColourSpecificationBox.decode (b : ColourSpecificationBox) (r : Reader) :
    Except JErr (ColourSpecificationBox × Reader) := do
  let (method, r1) ← r.read_exact 1
  let (prec, r2) ← r1.read_exact 1
  let (approx, r3) ← r2.read_exact 1
  let b1 := { b with precedence := prec, colourspace_approximation := approx }
  if method = [1] then do
    let (code, r4) ← EnumeratedColourSpaces.decode r3
    Except.ok ({ b1 with method := ColourMethod.EnumeratedColourSpace code }, r4)
  else if method = [2] then
    if b.length < 3 then Except.error JErr.panicked
    else do
      let (pd, r4) ← r3.read_exact (b.length - 3)
      Except.ok ({ b1 with method := ColourMethod.RestrictedICCProfile pd }, r4)
  else if method = [3] then
    if b.length < 3 then Except.error JErr.panicked
    else do
      let (pd, r4) ← r3.read_exact (b.length - 3)
      Except.ok ({ b1 with method := ColourMethod.AnyICCProfile pd }, r4)
  else if method = [4] then
    if b.length < 16 then Except.error JErr.panicked
    else do
      let (vdc, r4) ← r3.read_exact 16
      let (vp, r5) ← r4.read_exact (b.length - 16)
      Except.ok ({ b1 with method := ColourMethod.VendorColourMethod vdc vp }, r5)
  else if method = [5] then do
    let (colprims, r4) ← r3.read_exact 2
    let (transfc, r5) ← r4.read_exact 2
    let (matcoeffs, r6) ← r5.read_exact 2
    let (flags, r7) ← r6.read_exact 1
    let m := ColourMethod.ParameterizedColourspace (beNat colprims) (beNat transfc)
      (beNat matcoeffs) (flags.getD 0 0 &&& 128 = 128)
    Except.ok ({ b1 with method := m }, r7)
  else Except.ok ({ b1 with method := ColourMethod.Reserved (method.getD 0 0) }, r3)

/-- `BitsPerComponentBox`. -/
structure BitsPerComponentBox where
  length : Nat
  offset : Nat
  components_num : Nat
  bits_per_component : List Nat
deriving DecidableEq

/-- `BitsPerComponentBox::decode`: one byte per component. -/
def BitsPerComponentBox.decode (b : BitsPerComponentBox) (r : Reader) :
    Except JErr (BitsPerComponentBox × Reader) := do
  let (bits, r1) ← r.read_exact b.components_num
  Except.ok ({ b with bits_per_component := bits }, r1)

/-- `BitDepth::new`: low seven bits plus one, high bit is signedness. -/
inductive BitDepth
  | Signed (value : Nat)
  | Unsigned (value : Nat)
deriving DecidableEq

def BitDepth.new (byte : Nat) : BitDepth :=
  let value := byte % 128 + 1
  if byte / 128 = 1 then BitDepth.Signed value else BitDepth.Unsigned value

/-- `BitDepth::num_bytes`. -/
def BitDepth.num_bytes (b : BitDepth) : Nat :=
  match b with
  | BitDepth.Signed value => (value + 7) / 8
  | BitDepth.Unsigned value => (value + 7) / 8

/-- `PaletteBox`. -/
structure PaletteBox where
  length : Nat
  offset : Nat
  bit_depths : List BitDepth
  entries : List (List Nat)
deriving DecidableEq

/-- The bit-depth loop of `PaletteBox::decode`. -/
def readBitDepths : Nat → List BitDepth → Reader →
    Except JErr (List BitDepth × Reader)
  | 0, acc, r => Except.ok (acc, r)
  | n + 1, acc, r => do
    let (bd, r1) ← r.read_exact 1
    readBitDepths n (acc ++ [BitDepth.new (bd.getD 0 0)]) r1

/-- One palette entry: a value per column, sized by that column's bit
depth (`1` or `2` bytes, anything larger an `unimplemented!`). -/
def readPaletteEntry : List BitDepth → Reader → Except JErr (List Nat × Reader)
  | [], r => Except.ok ([], r)
  | bd :: rest, r => do
    let nb := bd.num_bytes
    if nb = 1 then do
      let (v, r1) ← r.read_exact 1
      let (vs, r2) ← readPaletteEntry rest r1
      Except.ok (beNat v :: vs, r2)
    else if nb = 2 then do
      let (v, r1) ← r.read_exact 2
      let (vs, r2) ← readPaletteEntry rest r1
      Except.ok (beNat v :: vs, r2)
    else Except.error JErr.panicked

/-- The entry loop of `PaletteBox::decode`. -/
def readPaletteEntries : Nat → List BitDepth → List (List Nat) → Reader →
    Except JErr (List (List Nat) × Reader)
  | 0, _, acc, r => Except.ok (acc, r)
  | n + 1, bds, acc, r => do
    let (e, r1) ← readPaletteEntry bds r
    readPaletteEntries n bds (acc ++ [e]) r1

/-- `PaletteBox::decode`. -/
def PaletteBox.decode (b : PaletteBox) (r : Reader) :
    Except JErr (PaletteBox × Reader) := do
  let (ne, r1) ← r.read_exact 2
  let num_entries := beNat ne
  let (npc, r2) ← r1.read_exact 1
  let num_palette_columns := beNat npc
  let (bds, r3) ← readBitDepths num_palette_columns b.bit_depths r2
  let (es, r4) ← readPaletteEntries num_entries bds b.entries r3
  Except.ok ({ b with bit_depths := bds, entries := es }, r4)

/-- `ComponentMap` (2-byte component, 1-byte type, 1-byte palette). -/
structure ComponentMap where
  component : List Nat
  mapping_type : Nat
  palette : List Nat
deriving DecidableEq

/-- `ComponentMappingBox`. -/
structure ComponentMappingBox where
  length : Nat
  offset : Nat
  mapping : List ComponentMap
deriving DecidableEq

/-- The `while index < self.length` loop of `ComponentMappingBox::decode`
(4 bytes per entry, so `ceil(length / 4)` iterations). -/
def readComponentMaps : Nat → List ComponentMap → Reader →
    Except JErr (List ComponentMap × Reader)
  | 0, acc, r => Except.ok (acc, r)
  | n + 1, acc, r => do
    let (comp, r1) ← r.read_exact 2
    let (mt, r2) ← r1.read_exact 1
    let (pal, r3) ← r2.read_exact 1
    readComponentMaps n (acc ++ [ComponentMap.mk comp (mt.getD 0 0) pal]) r3

/-- `ComponentMappingBox::decode`. -/
def ComponentMappingBox.decode (b : ComponentMappingBox) (r : Reader) :
    Except JErr (ComponentMappingBox × Reader) := do
  let (ms, r1) ← readComponentMaps ((b.length + 3) / 4) b.mapping r
  Except.ok ({ b with mapping := ms }, r1)

/-- A channel description of the `ChannelDefinitionBox` (three 2-byte
fields). -/
structure Channel where
  channel_index : List Nat
  channel_type : List Nat
  channel_association : List Nat
deriving DecidableEq

/-- `ChannelDefinitionBox`. -/
structure ChannelDefinitionBox where
  length : Nat
  offset : Nat
  channels : List Channel
deriving DecidableEq

/-- The channel loop of `ChannelDefinitionBox::decode`. -/
def readChannels : Nat → List Channel → Reader →
    Except JErr (List Channel × Reader)
  | 0, acc, r => Except.ok (acc, r)
  | n + 1, acc, r => do
    let (ci, r1) ← r.read_exact 2
    let (ct, r2) ← r1.read_exact 2
    let (ca, r3) ← r2.read_exact 2
    readChannels n (acc ++ [Channel.mk ci ct ca]) r3

/-- `ChannelDefinitionBox::decode`. -/
def ChannelDefinitionBox.decode (b : ChannelDefinitionBox) (r : Reader) :
    Except JErr (ChannelDefinitionBox × Reader) := do
  let (n, r1) ← r.read_exact 2
  let (cs, r2) ← readChannels (beNat n) b.channels r1
  Except.ok ({ b with channels := cs }, r2)

/-- `CaptureResolutionBox` (four 2-byte and two 1-byte fields). -/
structure CaptureResolutionBox where
  length : Nat
  offset : Nat
  fields : List Nat
deriving DecidableEq

/-- `CaptureResolutionBox::decode`. -/
def CaptureResolutionBox.decode (b : CaptureResolutionBox) (r : Reader) :
    Except JErr (CaptureResolutionBox × Reader) := do
  let (f, r1) ← r.read_exact 10
  Except.ok ({ b with fields := f }, r1)

/-- `DefaultDisplayResolutionBox` (same layout as capture resolution). -/
structure DefaultDisplayResolutionBox where
  length : Nat
  offset : Nat
  fields : List Nat
deriving DecidableEq

/-- `DefaultDisplayResolutionBox::decode`. -/
def DefaultDisplayResolutionBox.decode (b : DefaultDisplayResolutionBox)
    (r : Reader) : Except JErr (DefaultDisplayResolutionBox × Reader) := do
  let (f, r1) ← r.read_exact 10
  Except.ok ({ b with fields := f }, r1)

/-- `ResolutionSuperBox`. -/
structure ResolutionSuperBox where
  length : Nat
  offset : Nat
  capture_resolution_box : Option CaptureResolutionBox
  default_display_resolution_box : Option DefaultDisplayResolutionBox
deriving DecidableEq

/-- The sub-box loop of `ResolutionSuperBox::decode`.  Every iteration
advances the reader by at least the 8 header bytes, so `r.data.length + 2`
fuel always outlasts the loop. -/
def resolutionLoop : Nat → ResolutionSuperBox → Reader →
    Except JErr (ResolutionSuperBox × Reader)
  | 0, _, _ => Except.error JErr.panicked
  | fuel + 1, b, r => do
    let (hd, r1) ← decode_box_header r
    match BoxTypes.new hd.box_type with
    | BoxTypes.CaptureResolution =>
      match b.capture_resolution_box with
      | some _ => Except.error JErr.boxUnexpected
      | none => do
        let (crb, r2) ← (CaptureResolutionBox.mk hd.box_length
          r1.stream_position []).decode r1
        resolutionLoop fuel { b with capture_resolution_box := some crb } r2
    | BoxTypes.DefaultDisplayResolution =>
      match b.default_display_resolution_box with
      | some _ => Except.error JErr.boxUnexpected
      | none => do
        let (ddb, r2) ← (DefaultDisplayResolutionBox.mk hd.box_length
          r1.stream_position []).decode r1
        resolutionLoop fuel { b with default_display_resolution_box := some ddb } r2
    | _ => do
      let r2 ← r1.seek_current (-(hd.header_length : ℤ))
      Except.ok (b, r2)

/-- `ResolutionSuperBox::decode`: sub-boxes then the at-least-one check. -/
def ResolutionSuperBox.decode (b : ResolutionSuperBox) (r : Reader) :
    Except JErr (ResolutionSuperBox × Reader) := do
  let (b1, r1) ← resolutionLoop (r.data.length + 2) b r
  match b1.capture_resolution_box, b1.default_display_resolution_box with
  | none, none => Except.error JErr.boxMalformed
  | _, _ => Except.ok (b1, r1)

/-- `HeaderSuperBox`. -/
structure HeaderSuperBox where
  length : Nat
  offset : Nat
  image_header_box : ImageHeaderBox
  bits_per_component_box : Option BitsPerComponentBox
  colour_specification_boxes : List ColourSpecificationBox
  palette_box : Option PaletteBox
  component_mapping_box : Option ComponentMappingBox
  channel_definition_box : Option ChannelDefinitionBox
  resolution_box : Option ResolutionSuperBox
deriving DecidableEq

/-- The sub-box loop of `HeaderSuperBox::decode`: a stray image header is
ignored, the known header boxes decode (with duplicate checks), an
unknown type warns and breaks, and any other recognized type seeks back
its header and breaks.  Every continuing iteration advances the reader by
at least the 8 header bytes, so `r.data.length + 2` fuel always outlasts
the loop. -/
def headerLoop : Nat → HeaderSuperBox → Reader →
    Except JErr (HeaderSuperBox × Reader)
  | 0, _, _ => Except.error JErr.panicked
  | fuel + 1, b, r => do
    let (hd, r1) ← decode_box_header r
    match BoxTypes.new hd.box_type with
    | BoxTypes.ImageHeader => headerLoop fuel b r1
    | BoxTypes.ColourSpecification => do
      let csb0 : ColourSpecificationBox := ColourSpecificationBox.mk hd.box_length
        r1.stream_position (ColourMethod.EnumeratedColourSpace
          EnumeratedColourSpaces.Reserved) [0] [0]
      let (csb, r2) ← csb0.decode r1
      let b1 := { b with colour_specification_boxes := b.colour_specification_boxes ++ [csb] }
      headerLoop fuel b1 r2
    | BoxTypes.BitsPerComponent =>
      match b.bits_per_component_box with
      | some _ => Except.error JErr.boxDuplicate
      | none => do
        let components_num := beNat b.image_header_box.components_num
        let (bpc, r2) ← (BitsPerComponentBox.mk hd.box_length r1.stream_position
          components_num (List.replicate components_num 0)).decode r1
        headerLoop fuel { b with bits_per_component_box := some bpc } r2
    | BoxTypes.Palette =>
      match b.palette_box with
      | some _ => Except.error JErr.boxDuplicate
      | none => do
        let (pb, r2) ← (PaletteBox.mk hd.box_length r1.stream_position [] []).decode r1
        headerLoop fuel { b with palette_box := some pb } r2
    | BoxTypes.ComponentMapping =>
      match b.component_mapping_box with
      | some _ => Except.error JErr.boxDuplicate
      | none => do
        let (cmb, r2) ← (ComponentMappingBox.mk hd.box_length r1.stream_position []).decode r1
        headerLoop fuel { b with component_mapping_box := some cmb } r2
    | BoxTypes.ChannelDefinition =>
      match b.channel_definition_box with
      | some _ => Except.error JErr.boxDuplicate
      | none => do
        let (cdb, r2) ← (ChannelDefinitionBox.mk hd.box_length r1.stream_position []).decode r1
        headerLoop fuel { b with channel_definition_box := some cdb } r2
    | BoxTypes.Resolution =>
      match b.resolution_box with
      | some _ => Except.error JErr.boxDuplicate
      | none => do
        let (rb, r2) ← (ResolutionSuperBox.mk hd.box_length r1.stream_position
          none none).decode r1
        headerLoop fuel { b with resolution_box := some rb } r2
    | BoxTypes.Unknown => Except.ok (b, r1)
    | _ => do
      let r2 ← r1.seek_current (-(hd.header_length : ℤ))
      Except.ok (b, r2)

/-- `HeaderSuperBox::decode`: a leading Image Header box is required, then
the sub-box loop, then the at-least-one-colour-specification check
(`BoxMalformed`). -/
def HeaderSuperBox.decode (b : HeaderSuperBox) (r : Reader) :
    Except JErr (HeaderSuperBox × Reader) := do
  let (hd, r1) ← decode_box_header r
  if hd.box_type ≠ BOX_TYPE_IMAGE_HEADER then Except.error JErr.boxUnexpected
  else do
    let ihb0 := { ImageHeaderBox.default with length := hd.box_length, offset := r1.stream_position }
    let (ihb, r2) ← ihb0.decode r1
    let (b1, r3) ← headerLoop (r.data.length + 2) { b with image_header_box := ihb } r2
    if b1.colour_specification_boxes = [] then Except.error JErr.boxMalformed
    else Except.ok (b1, r3)

/-- `ContiguousCodestreamBox`. -/
structure ContiguousCodestreamBox where
  length : Nat
  offset : Nat
deriving DecidableEq

/-- `ContiguousCodestreamBox::decode`: length 0 means to-EOF (seek to the
end and measure), otherwise skip the codestream. -/
def ContiguousCodestreamBox.decode (b : ContiguousCodestreamBox) (r : Reader) :
    Except JErr (ContiguousCodestreamBox × Reader) :=
  if b.length = 0 then
    let r1 := r.seek_end
    Except.ok ({ b with length := r1.stream_position - b.offset }, r1)
  else do
    let r1 ← r.seek_current (b.length : ℤ)
    Except.ok (b, r1)

/-- `IntellectualPropertyBox`. -/
structure IntellectualPropertyBox where
  length : Nat
  offset : Nat
  data : List Nat
deriving DecidableEq

/-- `IntellectualPropertyBox::decode`: `length` raw bytes. -/
def IntellectualPropertyBox.decode (b : IntellectualPropertyBox) (r : Reader) :
    Except JErr (IntellectualPropertyBox × Reader) := do
  let (d, r1) ← r.read_exact b.length
  Except.ok ({ b with data := d }, r1)

/-- `XMLBox`. -/
structure XMLBox where
  length : Nat
  offset : Nat
  xml : List Nat
deriving DecidableEq

/-- `XMLBox::decode`: `length` raw bytes. -/
def XMLBox.decode (b : XMLBox) (r : Reader) : Except JErr (XMLBox × Reader) := do
  let (d, r1) ← r.read_exact b.length
  Except.ok ({ b with xml := d }, r1)

/-- `UUIDBox`. -/
structure UUIDBox where
  length : Nat
  offset : Nat
  uuid : List Nat
  data : List Nat
deriving DecidableEq

/-- `UUIDBox::decode`: a 16-byte UUID then `length - 16` data bytes (a
debug underflow below 16). -/
def UUIDBox.decode (b : UUIDBox) (r : Reader) : Except JErr (UUIDBox × Reader) := do
  let (u, r1) ← r.read_exact 16
  if b.length < 16 then Except.error JErr.panicked
  else do
    let (d, r2) ← r1.read_exact (b.length - 16)
    Except.ok ({ b with uuid := u, data := d }, r2)

/-- `UUIDListBox`. -/
structure UUIDListBox where
  length : Nat
  offset : Nat
  ids : List (List Nat)
deriving DecidableEq

/-- The UUID loop of `UUIDListBox::decode`. -/
def readUUIDs : Nat → List (List Nat) → Reader →
    Except JErr (List (List Nat) × Reader)
  | 0, acc, r => Except.ok (acc, r)
  | n + 1, acc, r => do
    let (u, r1) ← r.read_exact 16
    readUUIDs n (acc ++ [u]) r1

/-- `UUIDListBox::decode`. -/
def UUIDListBox.decode (b : UUIDListBox) (r : Reader) :
    Except JErr (UUIDListBox × Reader) := do
  let (n, r1) ← r.read_exact 2
  let (ids, r2) ← readUUIDs (beNat n) [] r1
  Except.ok ({ b with ids := ids }, r2)

/-- `DataEntryURLBox`. -/
structure DataEntryURLBox where
  length : Nat
  offset : Nat
  version : List Nat
  flags : List Nat
  location : List Nat
deriving DecidableEq

/-- `DataEntryURLBox::decode`: version, flags, then `length - 4` location
bytes (a debug underflow below 4). -/
def DataEntryURLBox.decode (b : DataEntryURLBox) (r : Reader) :
    Except JErr (DataEntryURLBox × Reader) := do
  let (v, r1) ← r.read_exact 1
  let (f, r2) ← r1.read_exact 3
  if b.length < 4 then Except.error JErr.panicked
  else do
    let (loc, r3) ← r2.read_exact (b.length - 4)
    Except.ok ({ b with version := v, flags := f, location := loc }, r3)

/-- `UUIDInfoSuperBox` (its own `decode` is a no-op; the members are
filled in by `decode_jp2`'s loop). -/
structure UUIDInfoSuperBox where
  length : Nat
  offset : Nat
  uuid_list : Option UUIDListBox
  data_entry_url_box : Option DataEntryURLBox
deriving DecidableEq

/-- `JP2File`. -/
structure JP2File where
  length : Nat
  signature : Option SignatureBox
  file_type : Option FileTypeBox
  header : Option HeaderSuperBox
  contiguous_codestreams : List ContiguousCodestreamBox
  intellectual_property : Option IntellectualPropertyBox
  xml : List XMLBox
  uuid : List UUIDBox
  uuid_info : List UUIDInfoSuperBox
deriving DecidableEq

/-- The mutable state of `decode_jp2`'s box loop. -/
structure JP2LoopState where
  header_box_option : Option HeaderSuperBox
  contiguous_codestream_boxes : List ContiguousCodestreamBox
  intellectual_property_option : Option IntellectualPropertyBox
  xml_boxes : List XMLBox
  uuid_boxes : List UUIDBox
  uuid_info_boxes : List UUIDInfoSuperBox
  current_uuid_info_box : Option UUIDInfoSuperBox
deriving DecidableEq

/-- The top-level box loop of `decode_jp2`: an end-of-file while reading a
box header ends the loop; a JP2 Header box decodes the superbox; XML,
UUID, UUIDInfo, UUIDList, DataEntryURL and IPR boxes collect; a
Contiguous Codestream box requires a preceding header; any other type -
including unknown ones - hits the `panic!` arm.  Every iteration advances
the reader by at least the 8 header bytes, so `r.data.length + 2` fuel
always outlasts the loop. -/
def jp2Loop : Nat → JP2LoopState → Reader → Except JErr (JP2LoopState × Reader)
  | 0, _, _ => Except.error JErr.panicked
  | fuel + 1, st, r =>
    match decode_box_header r with
    | Except.error JErr.eof => Except.ok (st, r)
    | Except.error e => Except.error e
    | Except.ok (hd, r1) =>
      match BoxTypes.new hd.box_type with
      | BoxTypes.Header => do
        let hb0 : HeaderSuperBox := HeaderSuperBox.mk hd.box_length r1.stream_position
          ImageHeaderBox.default none [] none none none none
        let (hb, r2) ← hb0.decode r1
        jp2Loop fuel { st with header_box_option := some hb } r2
      | BoxTypes.IntellectualProperty => do
        let (ipb, r2) ← (IntellectualPropertyBox.mk hd.box_length r1.stream_position
          (List.replicate hd.box_length 0)).decode r1
        jp2Loop fuel { st with intellectual_property_option := some ipb } r2
      | BoxTypes.Xml => do
        let (xb, r2) ← (XMLBox.mk hd.box_length r1.stream_position []).decode r1
        jp2Loop fuel { st with xml_boxes := st.xml_boxes ++ [xb] } r2
      | BoxTypes.Uuid => do
        let (ub, r2) ← (UUIDBox.mk hd.box_length r1.stream_position [] []).decode r1
        jp2Loop fuel { st with uuid_boxes := st.uuid_boxes ++ [ub] } r2
      | BoxTypes.UUIDInfo =>
        let uib := UUIDInfoSuperBox.mk hd.box_length r1.stream_position none none
        let pushed := match st.current_uuid_info_box with
          | some prev => st.uuid_info_boxes ++ [prev]
          | none => st.uuid_info_boxes
        let st1 := { st with uuid_info_boxes := pushed, current_uuid_info_box := some uib }
        jp2Loop fuel st1 r1
      | BoxTypes.UUIDList => do
        let (ulb, r2) ← (UUIDListBox.mk hd.box_length r1.stream_position []).decode r1
        match st.current_uuid_info_box with
        | some uib =>
          let st1 := { st with current_uuid_info_box := some { uib with uuid_list := some ulb } }
          jp2Loop fuel st1 r2
        | none => Except.error JErr.boxMissing
      | BoxTypes.DataEntryURL =>
        if hd.box_length < 4 then Except.error JErr.panicked
        else do
          let (dub, r2) ← (DataEntryURLBox.mk hd.box_length r1.stream_position
            [0] [0, 0, 0] []).decode r1
          match st.current_uuid_info_box with
          | some uib =>
            let st1 := { st with current_uuid_info_box := some { uib with data_entry_url_box := some dub } }
            jp2Loop fuel st1 r2
          | none => Except.error JErr.boxMissing
      | BoxTypes.ContiguousCodestream =>
        match st.header_box_option with
        | none => Except.error JErr.boxUnexpected
        | some _ => do
          let (ccb, r2) ← (ContiguousCodestreamBox.mk hd.box_length
            r1.stream_position).decode r1
          let st1 := { st with contiguous_codestream_boxes := st.contiguous_codestream_boxes ++ [ccb] }
          jp2Loop fuel st1 r2
      | _ => Except.error JErr.panicked

/-- `decode_jp2`: the Signature box must come first (magic checked by its
decoder), the File Type box second, then the box loop collects the rest. -/
def decode_jp2 (r : Reader) : Except JErr (JP2File × Reader) := do
  let (hd1, r1) ← decode_box_header r
  if hd1.box_type ≠ BOX_TYPE_SIGNATURE then Except.error JErr.boxUnexpected
  else do
    let sb0 : SignatureBox := SignatureBox.mk hd1.box_length r1.stream_position
    let (sb, r2) ← sb0.decode r1
    let (hd2, r3) ← decode_box_header r2
    let ftb0 : FileTypeBox := FileTypeBox.mk hd2.box_length r3.stream_position
      [0, 0, 0, 0] [0, 0, 0, 0] []
    if hd2.box_type ≠ BOX_TYPE_FILE_TYPE then Except.error JErr.boxUnexpected
    else do
      let (ftb, r4) ← ftb0.decode r3
      let st0 : JP2LoopState := JP2LoopState.mk none [] none [] [] [] none
      let (st, r5) ← jp2Loop (r.data.length + 2) st0 r4
      let final_uuid_infos := match st.current_uuid_info_box with
        | some uib => st.uuid_info_boxes ++ [uib]
        | none => st.uuid_info_boxes
      Except.ok (JP2File.mk r5.stream_position (some sb) (some ftb)
        st.header_box_option st.contiguous_codestream_boxes
        st.intellectual_property_option st.xml_boxes st.uuid_boxes
        final_uuid_infos, r5)


/-- Test harness: a minimal well-formed JP2 file (signature, file type
with brand and compatibility `jp2 `, JP2 header with image header and an
sRGB colour specification, and a contiguous codestream box). -/
def validJp2 : List Nat :=
  ([0, 0, 0, 12] ++ BOX_TYPE_SIGNATURE ++ SIGNATURE_MAGIC) ++
  ([0, 0, 0, 20] ++ BOX_TYPE_FILE_TYPE ++ BRAND_JP2 ++ [0, 0, 0, 0] ++ BRAND_JP2) ++
  ([0, 0, 0, 45] ++ BOX_TYPE_HEADER ++
    ([0, 0, 0, 22] ++ BOX_TYPE_IMAGE_HEADER ++ [0, 0, 0, 1, 0, 0, 0, 1, 0, 1, 7, 7, 0, 0]) ++
    ([0, 0, 0, 15] ++ BOX_TYPE_COLOUR_SPECIFICATION ++ [1, 0, 0, 0, 0, 0, 16])) ++
  ([0, 0, 0, 10] ++ BOX_TYPE_CONTIGUOUS_CODESTREAM ++ [255, 79])

/-- Test harness: `validJp2` with the signature box header declaring a
box length of 16 instead of 12. -/
def oversizedSigJp2 : List Nat :=
  ([0, 0, 0, 16] ++ BOX_TYPE_SIGNATURE ++ SIGNATURE_MAGIC) ++ validJp2.drop 12

/-- Test harness: a signature box whose third magic byte has bit 7
cleared. -/
def badMagicJp2 : List Nat :=
  ([0, 0, 0, 12] ++ BOX_TYPE_SIGNATURE ++ [13, 10, 7, 10]) ++ validJp2.drop 12

/-- Test harness: the file type box comes first. -/
def notSigFirstJp2 : List Nat := validJp2.drop 12

/-- Test harness: the JP2 header follows the signature directly. -/
def notFtypSecondJp2 : List Nat := validJp2.take 12 ++ validJp2.drop 32

/-- Test harness: the file type brand is `abcd`. -/
def badBrandJp2 : List Nat :=
  validJp2.take 12 ++
  ([0, 0, 0, 20] ++ BOX_TYPE_FILE_TYPE ++ [97, 98, 99, 100] ++ [0, 0, 0, 0] ++ BRAND_JP2) ++
  validJp2.drop 32

/-- Test harness: the compatibility list lacks `jp2 `. -/
def noCompatJp2 : List Nat :=
  validJp2.take 12 ++
  ([0, 0, 0, 20] ++ BOX_TYPE_FILE_TYPE ++ BRAND_JP2 ++ [0, 0, 0, 0] ++ [97, 98, 99, 100]) ++
  validJp2.drop 32

/-- Test harness: the codestream box precedes the JP2 header. -/
def codestreamBeforeHeaderJp2 : List Nat :=
  validJp2.take 32 ++ validJp2.drop 77 ++ (validJp2.drop 32).take 45

/-- Test harness: the JP2 header contains only the image header, no
colour specification. -/
def noColrJp2 : List Nat :=
  validJp2.take 32 ++
  ([0, 0, 0, 30] ++ BOX_TYPE_HEADER ++
    ([0, 0, 0, 22] ++ BOX_TYPE_IMAGE_HEADER ++ [0, 0, 0, 1, 0, 0, 0, 1, 0, 1, 7, 7, 0, 0])) ++
  validJp2.drop 77

/-- Test harness: an empty box of the unknown type `abcd` between the
file type box and the JP2 header. -/
def topLevelUnknownJp2 : List Nat :=
  validJp2.take 32 ++ ([0, 0, 0, 8] ++ [97, 98, 99, 100]) ++ validJp2.drop 32

/-- Test harness: the unknown `abcd` box sits at the end of the JP2
header superbox instead. -/
def headerUnknownJp2 : List Nat :=
  validJp2.take 32 ++
  ([0, 0, 0, 53] ++ BOX_TYPE_HEADER ++
    ([0, 0, 0, 22] ++ BOX_TYPE_IMAGE_HEADER ++ [0, 0, 0, 1, 0, 0, 0, 1, 0, 1, 7, 7, 0, 0]) ++
    ([0, 0, 0, 15] ++ BOX_TYPE_COLOUR_SPECIFICATION ++ [1, 0, 0, 0, 0, 0, 16]) ++
    ([0, 0, 0, 8] ++ [97, 98, 99, 100])) ++
  validJp2.drop 77

/-- The two structural facts `decode_jp2`'s loop maintains: a collected
codestream box implies an earlier JP2 header, and any collected header
passed its colour-specification check. -/
def jp2Inv (st : JP2LoopState) : Prop :=
  (st.contiguous_codestream_boxes ≠ [] → st.header_box_option.isSome = true) ∧
  (∀ hb, st.header_box_option = some hb → hb.colour_specification_boxes ≠ [])

end Jp2

namespace Jpc

/-! ## Theorems: bit reader -/

theorem byteBits_length (b : Nat) : (byteBits b).length = 8 := by
  simp [byteBits]

theorem BitReader.next_bit_cons {r : BitReader} {c : Bool} {t : List Bool}
    (ho : r.offset ≤ 8) (hb : r.bits = c :: t) :
    ∃ r', r.next_bit = some (c, r') ∧ r'.bits = t ∧ r'.offset ≤ 8 ∧
      r'.bits_read = r.bits_read + 1 := by
  rcases eq_or_lt_of_le ho with h8 | hlt
  · -- buffer exhausted: refill from the next input byte
    have hdrop : (byteBits r.last_byte).drop r.offset = [] := by
      apply List.drop_eq_nil_of_le
      simp [byteBits_length, ← h8]
    rw [BitReader.bits, hdrop, List.nil_append] at hb
    cases hin : r.input with
    | nil => simp [hin] at hb
    | cons b rest =>
      have hflat : ((r.input.map byteBits).flatten) = byteBits b ++ (rest.map byteBits).flatten := by
        simp [hin]
      rw [hflat] at hb
      have hbb : byteBits b = (((b >>> 7) &&& 1) = 1 : Bool) :: (byteBits b).drop 1 := by
        have h1 : (0 : Nat) < (byteBits b).length := by simp [byteBits_length]
        have h2 := List.drop_eq_getElem_cons h1
        simp only [List.drop_zero] at h2
        rw [h2]
        simp [byteBits]
      rw [hbb, List.cons_append] at hb
      injection hb with hc ht
      refine ⟨{ input := rest, last_byte := b, offset := 1, bits_read := r.bits_read + 1 },
        ?_, ?_, ?_, ?_⟩
      · rw [BitReader.next_bit]
        simp only [h8, if_pos, hin]
        rw [hc]
      · simp only [BitReader.bits]
        exact ht
      · show (1 : Nat) ≤ 8
        omega
      · rfl
  · -- bits remain in the buffered byte
    have hofs : r.offset < (byteBits r.last_byte).length := by
      simp only [byteBits_length]; omega
    have hdrop := List.drop_eq_getElem_cons hofs
    have hget : (byteBits r.last_byte)[r.offset] =
        ((((r.last_byte >>> (7 - r.offset)) &&& 1) = 1 : Bool)) := by
      simp [byteBits]
    rw [BitReader.bits, hdrop, hget, List.cons_append] at hb
    injection hb with hc ht
    refine ⟨{ r with offset := r.offset + 1, bits_read := r.bits_read + 1 }, ?_, ?_, ?_, ?_⟩
    · rw [BitReader.next_bit]
      have hne : ¬ (r.offset = 8) := by omega
      simp only [if_neg hne]
      rw [hc]
    · simp only [BitReader.bits]
      exact ht
    · show r.offset + 1 ≤ 8
      omega
    · rfl

theorem BitReader.takeAux_spec : ∀ (n out : Nat) (r : BitReader),
    r.offset ≤ 8 → n ≤ r.bits.length → n ≤ 8 → out < 2 ^ (8 - n) →
    ∃ r', BitReader.takeAux n out r =
        some ((r.bits.take n).foldl (fun a b => a * 2 + (if b then 1 else 0)) out, r') ∧
      r'.bits = r.bits.drop n ∧ r'.offset ≤ 8 ∧ r'.bits_read = r.bits_read + n := by
  intro n
  induction n with
  | zero =>
    intro out r ho _ _ _
    exact ⟨r, rfl, by simp, ho, by simp⟩
  | succ n ih =>
    intro out r ho hlen hn8 hout
    obtain ⟨c, t, hb⟩ : ∃ c t, r.bits = c :: t := by
      cases hbits : r.bits with
      | nil => rw [hbits] at hlen; simp at hlen
      | cons c t => exact ⟨c, t, rfl⟩
    obtain ⟨r1, hnext, hb1, ho1, hc1⟩ := BitReader.next_bit_cons ho hb
    have hpow : 2 ^ (8 - n) = 2 * 2 ^ (8 - (n + 1)) := by
      have : 8 - n = (8 - (n + 1)) + 1 := by omega
      rw [this, pow_succ]; ring
    have hout2 : out * 2 + (if c then 1 else 0) < 2 ^ (8 - n) := by
      rw [hpow]
      have : (if c then 1 else 0) ≤ 1 := by split <;> omega
      omega
    have hsmall : out * 2 + (if c then 1 else 0) < 256 := by
      have h256 : (2 : Nat) ^ (8 - n) ≤ 2 ^ 8 := Nat.pow_le_pow_right (by norm_num) (by omega)
      calc out * 2 + (if c then 1 else 0) < 2 ^ (8 - n) := hout2
        _ ≤ 2 ^ 8 := h256
        _ = 256 := by norm_num
    have hmod : (out * 2 + (if c then 1 else 0)) % 256 = out * 2 + (if c then 1 else 0) :=
      Nat.mod_eq_of_lt hsmall
    have hlen1 : n ≤ r1.bits.length := by
      rw [hb1]
      have : r.bits.length = t.length + 1 := by rw [hb]; simp
      omega
    obtain ⟨r', hrun, hb', ho', hc'⟩ := ih (out * 2 + (if c then 1 else 0)) r1 ho1 hlen1 (by omega) hout2
    refine ⟨r', ?_, ?_, ho', ?_⟩
    · rw [BitReader.takeAux, hnext]
      show BitReader.takeAux n ((out * 2 + (if c then 1 else 0)) % 256) r1 = _
      rw [hmod, hrun, hb1, hb, List.take_succ_cons, List.foldl_cons]
    · rw [hb', hb1, hb]
      simp [List.drop_succ_cons]
    · rw [hc', hc1]; omega

/-- C5 (amended): `BitReader::take` returns, for every `N ≤ 8` and every
reader with at least `N` bits left, the unsigned integer formed by the next
`N` bits read MSB-first.  (The claim's range `N ≤ 32` does not hold: the
accumulator and return type are `u8`, so no value above `2^8 - 1` can be
returned; see the counterexample.) -/
theorem BitReader.take_spec (r : BitReader) (n : Nat)
    (hn : n ≤ 8) (ho : r.offset ≤ 8) (hlen : n ≤ r.bits.length) :
    ∃ r', r.take n = some (natOfBits (r.bits.take n), r') ∧
      r'.bits = r.bits.drop n ∧ r'.bits_read = r.bits_read + n := by
  obtain ⟨r', h1, h2, _, h4⟩ := BitReader.takeAux_spec n 0 r ho hlen hn (by positivity)
  exact ⟨r', h1, h2, h4⟩

/-- Witness for `BitReader.take_spec` at a concrete input: reading three bits
of the byte `0b1011_0000` yields `0b101 = 5`. -/
theorem BitReader.take_spec_witness :
    ((3 ≤ 8 ∧ (BitReader.mk [] 176 0 0).offset ≤ 8 ∧ 3 ≤ (BitReader.mk [] 176 0 0).bits.length) ∧
      ∃ r', (BitReader.mk [] 176 0 0).take 3 =
          some (natOfBits ((BitReader.mk [] 176 0 0).bits.take 3), r') ∧
        r'.bits = (BitReader.mk [] 176 0 0).bits.drop 3 ∧
        r'.bits_read = (BitReader.mk [] 176 0 0).bits_read + 3) :=
  ⟨⟨by omega, by decide, by decide⟩,
    BitReader.take_spec (BitReader.mk [] 176 0 0) 3 (by omega) (by decide) (by decide)⟩

/-- C5 counterexample: on input `[0xFF, 0xFF]` the next nine bits are nine
ones, encoding the value `511` (well below `2^32 - 1`), but `take 9` returns
`255` — the `u8` accumulator cannot represent the claimed 32-bit result
(a debug build would panic on the wrapping multiplication instead). -/
theorem BitReader.take9_not_full_value :
    ((BitReader.new [255, 255]).map (fun r => r.bits.take 9)) = some (List.replicate 9 true)
    ∧ natOfBits (List.replicate 9 true) = 511
    ∧ ((BitReader.new [255, 255]).bind (BitReader.take 9)).map Prod.fst = some 255
    ∧ (255 : Nat) ≠ 511 := by decide

/-! ## Theorems: tag tree -/

theorem nodeLe_refl (n : TagTreeNode) : nodeLe n n := by
  cases n <;> simp [nodeLe]

theorem nodeLe_trans {a b c : TagTreeNode} (h1 : nodeLe a b) (h2 : nodeLe b c) :
    nodeLe a c := by
  cases a <;> cases b <;> cases c <;> simp_all [nodeLe] <;> omega

theorem nodeLe_LB {a b : TagTreeNode} (h : nodeLe a b) : nodeLB a ≤ nodeLB b := by
  cases a <;> cases b <;> simp_all [nodeLe, nodeLB]

theorem setNode_max_depth (t : TagTreeDecoder) (i : I2) (l : Nat) (n : TagTreeNode) :
    (t.setNode i l n).max_depth = t.max_depth := by
  rw [TagTreeDecoder.setNode]
  cases t.levels[l]? with
  | none => rfl
  | some p => rfl

theorem node_of_get {t : TagTreeDecoder} {l : Nat} {w : Nat} {vals : List TagTreeNode}
    (h : t.levels[l]? = some (w, vals)) (i : I2) :
    t.node i l = (vals[i.y * w + i.x]?).getD TagTreeNode.SeeParent := by
  rw [TagTreeDecoder.node, h]

theorem node_of_none {t : TagTreeDecoder} {l : Nat} (h : t.levels[l]? = none) (i : I2) :
    t.node i l = TagTreeNode.SeeParent := by
  rw [TagTreeDecoder.node, h]

theorem setNode_of_get {t : TagTreeDecoder} {l : Nat} {w : Nat} {vals : List TagTreeNode}
    (h : t.levels[l]? = some (w, vals)) (i : I2) (n : TagTreeNode) :
    t.setNode i l n =
      { t with levels := t.levels.set l (w, vals.set (i.y * w + i.x) n) } := by
  rw [TagTreeDecoder.setNode, h]

theorem setNode_of_none {t : TagTreeDecoder} {l : Nat} (h : t.levels[l]? = none)
    (i : I2) (n : TagTreeNode) : t.setNode i l n = t := by
  rw [TagTreeDecoder.setNode, h]

theorem setNode_node_cases (t : TagTreeDecoder) (i : I2) (l : Nat) (n : TagTreeNode)
    (i2 : I2) (l2 : Nat) :
    (t.setNode i l n).node i2 l2 = t.node i2 l2 ∨
    ((t.setNode i l n).node i2 l2 = n ∧ t.node i2 l2 = t.node i l) := by
  cases hl : t.levels[l]? with
  | none => left; rw [setNode_of_none hl]
  | some p =>
    obtain ⟨w, vals⟩ := p
    rw [setNode_of_get hl]
    have hlen : l < t.levels.length := (List.getElem?_eq_some_iff.mp hl).1
    by_cases hll : l = l2
    · subst hll
      have hnew : (t.levels.set l (w, vals.set (i.y * w + i.x) n))[l]? =
          some (w, vals.set (i.y * w + i.x) n) := by
        simp [List.getElem?_set, hlen]
      by_cases hp : i.y * w + i.x = i2.y * w + i2.x
      · by_cases hpl : i.y * w + i.x < vals.length
        · right
          constructor
          · rw [node_of_get hnew, ← hp]
            simp [List.getElem?_set, hpl]
          · rw [node_of_get hl, node_of_get hl, hp]
        · left
          rw [node_of_get hnew, node_of_get hl, ← hp, List.getElem?_set, if_pos rfl,
            if_neg hpl]
          have : vals[i.y * w + i.x]? = none := by
            rw [List.getElem?_eq_none_iff]; omega
          rw [this]
      · left
        rw [node_of_get hnew, node_of_get hl, List.getElem?_set, if_neg hp]
    · left
      have hnew : (t.levels.set l (w, vals.set (i.y * w + i.x) n))[l2]? = t.levels[l2]? := by
        rw [List.getElem?_set, if_neg hll]
      cases hl2 : t.levels[l2]? with
      | none => rw [node_of_none (hnew.trans hl2), node_of_none hl2]
      | some q =>
        obtain ⟨w2, vals2⟩ := q
        rw [node_of_get (hnew.trans hl2), node_of_get hl2]

theorem setNode_node_ne_level (t : TagTreeDecoder) (i : I2) (l : Nat) (n : TagTreeNode)
    (i2 : I2) (l2 : Nat) (h : l ≠ l2) :
    (t.setNode i l n).node i2 l2 = t.node i2 l2 := by
  cases hl : t.levels[l]? with
  | none => rw [setNode_of_none hl]
  | some p =>
    obtain ⟨w, vals⟩ := p
    rw [setNode_of_get hl]
    have hnew : (t.levels.set l (w, vals.set (i.y * w + i.x) n))[l2]? = t.levels[l2]? := by
      rw [List.getElem?_set, if_neg h]
    cases hl2 : t.levels[l2]? with
    | none => rw [node_of_none (hnew.trans hl2), node_of_none hl2]
    | some q =>
      obtain ⟨w2, vals2⟩ := q
      rw [node_of_get (hnew.trans hl2), node_of_get hl2]

theorem setNode_node_self (t : TagTreeDecoder) (i : I2) (l : Nat) (n : TagTreeNode)
    (hv : validIdx t l i) : (t.setNode i l n).node i l = n := by
  rw [validIdx] at hv
  cases hl : t.levels[l]? with
  | none => rw [hl] at hv; exact absurd hv (by simp)
  | some p =>
    obtain ⟨w, vals⟩ := p
    rw [hl] at hv
    change i.y * w + i.x < vals.length at hv
    have hlen : l < t.levels.length := (List.getElem?_eq_some_iff.mp hl).1
    rw [setNode_of_get hl]
    have hnew : (t.levels.set l (w, vals.set (i.y * w + i.x) n))[l]? =
        some (w, vals.set (i.y * w + i.x) n) := by
      simp [List.getElem?_set, hlen]
    rw [node_of_get hnew]
    simp [List.getElem?_set, hv]

theorem setNode_validIdx (t : TagTreeDecoder) (i : I2) (l : Nat) (n : TagTreeNode)
    (i2 : I2) (l2 : Nat) :
    validIdx (t.setNode i l n) l2 i2 ↔ validIdx t l2 i2 := by
  cases hl : t.levels[l]? with
  | none => rw [setNode_of_none hl]
  | some p =>
    obtain ⟨w, vals⟩ := p
    rw [setNode_of_get hl]
    have hlen : l < t.levels.length := (List.getElem?_eq_some_iff.mp hl).1
    by_cases hll : l = l2
    · subst hll
      have hnew : (t.levels.set l (w, vals.set (i.y * w + i.x) n))[l]? =
          some (w, vals.set (i.y * w + i.x) n) := by
        simp [List.getElem?_set, hlen]
      simp only [validIdx, hnew, hl, List.length_set]
    · have hnew : (t.levels.set l (w, vals.set (i.y * w + i.x) n))[l2]? = t.levels[l2]? := by
        rw [List.getElem?_set, if_neg hll]
      simp only [validIdx, hnew]

theorem goodState_node {b : Nat} {t : TagTreeDecoder} (hg : goodState b t)
    {i : I2} {l : Nat} {v : Nat} (h : t.node i l = TagTreeNode.Value v) : v ≤ b := by
  cases hl : t.levels[l]? with
  | none => rw [node_of_none hl] at h; exact absurd h (by simp)
  | some p =>
    obtain ⟨w, vals⟩ := p
    rw [node_of_get hl] at h
    cases he : vals[i.y * w + i.x]? with
    | none => rw [he] at h; exact absurd h (by simp)
    | some nd =>
      rw [he] at h
      simp only [Option.getD_some] at h
      subst h
      exact hg _ (List.getElem?_mem hl) _ (List.getElem?_mem he) v rfl

theorem goodState_setNode {b : Nat} {t : TagTreeDecoder} (hg : goodState b t)
    {i : I2} {l : Nat} {n : TagTreeNode} (hn : ∀ v, n = TagTreeNode.Value v → v ≤ b) :
    goodState b (t.setNode i l n) := by
  rw [TagTreeDecoder.setNode]
  cases hl : t.levels[l]? with
  | none => exact hg
  | some p =>
    obtain ⟨w, vals⟩ := p
    intro q hq nd hnd v hv
    rcases List.mem_or_eq_of_mem_set hq with hq' | hq'
    · exact hg q hq' nd hnd v hv
    · subst hq'
      rcases List.mem_or_eq_of_mem_set hnd with hnd' | hnd'
      · exact hg _ (List.getElem?_mem hl) nd hnd' v hv
      · subst hnd'; exact hn v hv

theorem readLoopF_spec : ∀ (fuel bound cur : Nat), bound + 1 - cur ≤ fuel →
    ∀ (t : TagTreeDecoder) (idx : I2) (level : Nat) (br : BitReader)
      (n : TagTreeNode) (t' : TagTreeDecoder) (br' : BitReader),
    readLoopF t idx level bound fuel cur br = Except.ok (n, t', br') →
    ∃ p, cur ≤ p ∧ t' = t.setNode idx level n ∧
      ((n = TagTreeNode.Value p ∧ p ≤ bound) ∨
        (n = TagTreeNode.AtLeast p ∧ bound < p)) := by
  intro fuel
  induction fuel with
  | zero =>
    intro bound cur hk t idx level br n t' br' h
    rw [readLoopF] at h
    simp only [Except.ok.injEq, Prod.mk.injEq] at h
    obtain ⟨h1, h2, h3⟩ := h
    exact ⟨cur, le_refl cur, by rw [← h2, ← h1], Or.inr ⟨h1.symm, by omega⟩⟩
  | succ k ih =>
    intro bound cur hk t idx level br n t' br' h
    rw [readLoopF] at h
    by_cases hcb : cur ≤ bound
    · rw [if_pos hcb] at h
      cases hnb : br.next_bit with
      | none => rw [hnb] at h; exact absurd h (by simp)
      | some p =>
        obtain ⟨b, br2⟩ := p
        rw [hnb] at h
        cases b with
        | true =>
          simp only [if_true, Except.ok.injEq, Prod.mk.injEq] at h
          obtain ⟨h1, h2, h3⟩ := h
          exact ⟨cur, le_refl cur, by rw [← h2, ← h1], Or.inl ⟨h1.symm, hcb⟩⟩
        | false =>
          simp only [if_false] at h
          obtain ⟨p, hp1, hp2, hp3⟩ := ih bound (cur + 1) (by omega) t idx level br2 n t' br' h
          exact ⟨p, by omega, hp2, hp3⟩
    · rw [if_neg hcb] at h
      simp only [Except.ok.injEq, Prod.mk.injEq] at h
      obtain ⟨h1, h2, h3⟩ := h
      exact ⟨cur, le_refl cur, by rw [← h2, ← h1], Or.inr ⟨h1.symm, by omega⟩⟩

theorem readLoop_spec : ∀ (k bound cur : Nat), bound + 1 - cur ≤ k →
    ∀ (t : TagTreeDecoder) (idx : I2) (level : Nat) (br : BitReader)
      (n : TagTreeNode) (t' : TagTreeDecoder) (br' : BitReader),
    readLoop t idx level bound cur br = Except.ok (n, t', br') →
    ∃ p, cur ≤ p ∧ t' = t.setNode idx level n ∧
      ((n = TagTreeNode.Value p ∧ p ≤ bound) ∨
        (n = TagTreeNode.AtLeast p ∧ bound < p)) := by
  intro k bound cur _ t idx level br n t' br' h
  rw [readLoop] at h
  exact readLoopF_spec (bound + 1 - cur) bound cur (le_refl _) t idx level br n t' br' h

theorem readLoopF_error : ∀ (fuel bound cur : Nat),
    ∀ (t : TagTreeDecoder) (idx : I2) (level : Nat) (br : BitReader) (e : TTErr),
    readLoopF t idx level bound fuel cur br = Except.error e → e = TTErr.truncated := by
  intro fuel
  induction fuel with
  | zero =>
    intro bound cur t idx level br e h
    rw [readLoopF] at h
    exact absurd h (by simp)
  | succ k ih =>
    intro bound cur t idx level br e h
    rw [readLoopF] at h
    by_cases hcb : cur ≤ bound
    · rw [if_pos hcb] at h
      cases hnb : br.next_bit with
      | none =>
        rw [hnb] at h
        simp only [Except.error.injEq] at h
        exact h.symm
      | some p =>
        obtain ⟨b, br2⟩ := p
        rw [hnb] at h
        cases b with
        | true => simp only [if_true] at h; exact absurd h (by simp)
        | false =>
          simp only [if_false] at h
          exact ih bound (cur + 1) t idx level br2 e h
    · rw [if_neg hcb] at h
      exact absurd h (by simp)

theorem readLoop_error : ∀ (k bound cur : Nat), bound + 1 - cur ≤ k →
    ∀ (t : TagTreeDecoder) (idx : I2) (level : Nat) (br : BitReader) (e : TTErr),
    readLoop t idx level bound cur br = Except.error e → e = TTErr.truncated := by
  intro k bound cur _ t idx level br e h
  rw [readLoop] at h
  exact readLoopF_error (bound + 1 - cur) bound cur t idx level br e h

theorem rub_levels : ∀ (level : Nat) (t : TagTreeDecoder) (idx : I2) (bound : Nat)
    (br : BitReader) (n : TagTreeNode) (t' : TagTreeDecoder) (br' : BitReader),
    read_until_bound level t idx bound br = Except.ok (n, t', br') →
    ∀ i2 l2, level < l2 → t'.node i2 l2 = t.node i2 l2 := by
  intro level
  induction level with
  | zero =>
    intro t idx bound br n t' br' h i2 l2 hl2
    rw [read_until_bound.eq_def] at h
    split at h
    · simp only [Except.ok.injEq, Prod.mk.injEq] at h
      rw [← h.2.1]
    · next v heq =>
      obtain ⟨p, hp1, hp2, hp3⟩ :=
        readLoop_spec (bound + 1 - v) bound v (le_refl _) t idx 0 br n t' br' h
      rw [hp2]
      exact setNode_node_ne_level t idx 0 n i2 l2 (by omega)
    · exact absurd h (by simp)
    · next l0 heq1 heq2 => exact absurd heq2 (by omega)
  | succ l ih =>
    intro t idx bound br n t' br' h i2 l2 hl2
    rw [read_until_bound.eq_def] at h
    split at h
    · simp only [Except.ok.injEq, Prod.mk.injEq] at h
      rw [← h.2.1]
    · next v heq =>
      obtain ⟨p, hp1, hp2, hp3⟩ :=
        readLoop_spec (bound + 1 - v) bound v (le_refl _) t idx (l + 1) br n t' br' h
      rw [hp2]
      exact setNode_node_ne_level t idx (l + 1) n i2 l2 (by omega)
    · next heq1 heq2 => exact absurd heq2 (by omega)
    · next l0 heq1 heq2 =>
      have hl0 : l0 = l := by omega
      rw [hl0] at h
      split at h
      · exact absurd h (by simp)
      · exact absurd h (by simp)
      · next v t1 br1 heq3 =>
        split at h
        · simp only [Except.ok.injEq, Prod.mk.injEq] at h
          rw [← h.2.1]
          exact ih t _ bound br _ t1 br1 heq3 i2 l2 (by omega)
        · exact absurd h (by simp)
      · next v t1 br1 heq3 =>
        obtain ⟨p, hp1, hp2, hp3⟩ :=
          readLoop_spec (bound + 1 - v) bound v (le_refl _) t1 idx (l + 1) br1 n t' br' h
        rw [hp2, setNode_node_ne_level t1 idx (l + 1) n i2 l2 (by omega)]
        exact ih t _ bound br _ t1 br1 heq3 i2 l2 (by omega)

theorem readLoop_mono {t : TagTreeDecoder} {idx : I2} {level bound v : Nat}
    {br : BitReader} {n : TagTreeNode} {t' : TagTreeDecoder} {br' : BitReader}
    (h : readLoop t idx level bound v br = Except.ok (n, t', br'))
    (hslot : t.node idx level = TagTreeNode.AtLeast v ∨
      t.node idx level = TagTreeNode.SeeParent) :
    ∀ i2 l2, nodeLe (t.node i2 l2) (t'.node i2 l2) := by
  obtain ⟨p, hp1, hp2, hp3⟩ :=
    readLoop_spec (bound + 1 - v) bound v (le_refl _) t idx level br n t' br' h
  intro i2 l2
  rw [hp2]
  rcases setNode_node_cases t idx level n i2 l2 with hc | ⟨hnew, hold⟩
  · rw [hc]; exact nodeLe_refl _
  · rw [hnew, hold]
    rcases hslot with hs | hs <;> rw [hs] <;>
      rcases hp3 with ⟨hn1, _⟩ | ⟨hn1, _⟩ <;> subst hn1 <;> simp [nodeLe] <;> omega

theorem rub_mono : ∀ (level : Nat) (t : TagTreeDecoder) (idx : I2) (bound : Nat)
    (br : BitReader) (n : TagTreeNode) (t' : TagTreeDecoder) (br' : BitReader),
    read_until_bound level t idx bound br = Except.ok (n, t', br') →
    ∀ i2 l2, nodeLe (t.node i2 l2) (t'.node i2 l2) := by
  intro level
  induction level with
  | zero =>
    intro t idx bound br n t' br' h
    rw [read_until_bound.eq_def] at h
    split at h
    · simp only [Except.ok.injEq, Prod.mk.injEq] at h
      intro i2 l2; rw [← h.2.1]; exact nodeLe_refl _
    · next v heq => exact readLoop_mono h (Or.inl heq)
    · exact absurd h (by simp)
    · next l0 heq1 heq2 => exact absurd heq2 (by omega)
  | succ l ih =>
    intro t idx bound br n t' br' h
    rw [read_until_bound.eq_def] at h
    split at h
    · simp only [Except.ok.injEq, Prod.mk.injEq] at h
      intro i2 l2; rw [← h.2.1]; exact nodeLe_refl _
    · next v heq => exact readLoop_mono h (Or.inl heq)
    · next heq1 heq2 => exact absurd heq2 (by omega)
    · next l0 heq1 heq2 =>
      have hl0 : l0 = l := by omega
      rw [hl0] at h
      split at h
      · exact absurd h (by simp)
      · exact absurd h (by simp)
      · next v t1 br1 heq3 =>
        split at h
        · simp only [Except.ok.injEq, Prod.mk.injEq] at h
          intro i2 l2
          rw [← h.2.1]
          exact ih t _ bound br _ t1 br1 heq3 i2 l2
        · exact absurd h (by simp)
      · next v t1 br1 heq3 =>
        intro i2 l2
        have h1 := ih t _ bound br _ t1 br1 heq3 i2 l2
        have hslot : t1.node idx (l + 1) = TagTreeNode.SeeParent := by
          rw [rub_levels l t _ bound br _ t1 br1 heq3 idx (l + 1) (by omega)]
          exact heq1
        exact nodeLe_trans h1 (readLoop_mono h (Or.inr hslot) i2 l2)

theorem rub_shape : ∀ (level : Nat) (t : TagTreeDecoder) (idx : I2) (bound : Nat)
    (br : BitReader) (n : TagTreeNode) (t' : TagTreeDecoder) (br' : BitReader),
    read_until_bound level t idx bound br = Except.ok (n, t', br') →
    t'.max_depth = t.max_depth ∧ ∀ l2 i2, (validIdx t' l2 i2 ↔ validIdx t l2 i2) := by
  intro level
  induction level with
  | zero =>
    intro t idx bound br n t' br' h
    rw [read_until_bound.eq_def] at h
    split at h
    · simp only [Except.ok.injEq, Prod.mk.injEq] at h
      rw [← h.2.1]; exact ⟨rfl, fun _ _ => Iff.rfl⟩
    · next v heq =>
      obtain ⟨p, hp1, hp2, hp3⟩ :=
        readLoop_spec (bound + 1 - v) bound v (le_refl _) t idx 0 br n t' br' h
      rw [hp2]
      exact ⟨setNode_max_depth t idx 0 n, fun l2 i2 => setNode_validIdx t idx 0 n i2 l2⟩
    · exact absurd h (by simp)
    · next l0 heq1 heq2 => exact absurd heq2 (by omega)
  | succ l ih =>
    intro t idx bound br n t' br' h
    rw [read_until_bound.eq_def] at h
    split at h
    · simp only [Except.ok.injEq, Prod.mk.injEq] at h
      rw [← h.2.1]; exact ⟨rfl, fun _ _ => Iff.rfl⟩
    · next v heq =>
      obtain ⟨p, hp1, hp2, hp3⟩ :=
        readLoop_spec (bound + 1 - v) bound v (le_refl _) t idx (l + 1) br n t' br' h
      rw [hp2]
      exact ⟨setNode_max_depth t idx (l + 1) n,
        fun l2 i2 => setNode_validIdx t idx (l + 1) n i2 l2⟩
    · next heq1 heq2 => exact absurd heq2 (by omega)
    · next l0 heq1 heq2 =>
      have hl0 : l0 = l := by omega
      rw [hl0] at h
      split at h
      · exact absurd h (by simp)
      · exact absurd h (by simp)
      · next v t1 br1 heq3 =>
        split at h
        · simp only [Except.ok.injEq, Prod.mk.injEq] at h
          rw [← h.2.1]
          exact ih t _ bound br _ t1 br1 heq3
        · exact absurd h (by simp)
      · next v t1 br1 heq3 =>
        obtain ⟨hd1, hv1⟩ := ih t _ bound br _ t1 br1 heq3
        obtain ⟨p, hp1, hp2, hp3⟩ :=
          readLoop_spec (bound + 1 - v) bound v (le_refl _) t1 idx (l + 1) br1 n t' br' h
        rw [hp2]
        refine ⟨(setNode_max_depth t1 idx (l + 1) n).trans hd1, fun l2 i2 => ?_⟩
        exact (setNode_validIdx t1 idx (l + 1) n i2 l2).trans (hv1 l2 i2)

theorem rub_atLeast_gt : ∀ (level : Nat) (t : TagTreeDecoder) (idx : I2) (bound : Nat)
    (br : BitReader) (n : TagTreeNode) (t' : TagTreeDecoder) (br' : BitReader),
    read_until_bound level t idx bound br = Except.ok (n, t', br') →
    ∀ v, n = TagTreeNode.AtLeast v → bound < v := by
  intro level
  induction level with
  | zero =>
    intro t idx bound br n t' br' h
    rw [read_until_bound.eq_def] at h
    split at h
    · simp only [Except.ok.injEq, Prod.mk.injEq] at h
      intro v hv
      rw [← h.1] at hv
      exact absurd hv (by simp)
    · next v0 heq =>
      obtain ⟨p, hp1, hp2, hp3⟩ :=
        readLoop_spec (bound + 1 - v0) bound v0 (le_refl _) t idx 0 br n t' br' h
      intro v hv
      rcases hp3 with ⟨hn1, _⟩ | ⟨hn1, hgt⟩
      · rw [hn1] at hv; exact absurd hv (by simp)
      · rw [hn1] at hv
        simp only [TagTreeNode.AtLeast.injEq] at hv
        omega
    · exact absurd h (by simp)
    · next l0 heq1 heq2 => exact absurd heq2 (by omega)
  | succ l ih =>
    intro t idx bound br n t' br' h
    rw [read_until_bound.eq_def] at h
    split at h
    · simp only [Except.ok.injEq, Prod.mk.injEq] at h
      intro v hv
      rw [← h.1] at hv
      exact absurd hv (by simp)
    · next v0 heq =>
      obtain ⟨p, hp1, hp2, hp3⟩ :=
        readLoop_spec (bound + 1 - v0) bound v0 (le_refl _) t idx (l + 1) br n t' br' h
      intro v hv
      rcases hp3 with ⟨hn1, _⟩ | ⟨hn1, hgt⟩
      · rw [hn1] at hv; exact absurd hv (by simp)
      · rw [hn1] at hv
        simp only [TagTreeNode.AtLeast.injEq] at hv
        omega
    · next heq1 heq2 => exact absurd heq2 (by omega)
    · next l0 heq1 heq2 =>
      have hl0 : l0 = l := by omega
      rw [hl0] at h
      split at h
      · exact absurd h (by simp)
      · exact absurd h (by simp)
      · next v0 t1 br1 heq3 =>
        split at h
        · next hgt =>
          simp only [Except.ok.injEq, Prod.mk.injEq] at h
          intro v hv
          rw [← h.1] at hv
          simp only [TagTreeNode.AtLeast.injEq] at hv
          omega
        · exact absurd h (by simp)
      · next v0 t1 br1 heq3 =>
        obtain ⟨p, hp1, hp2, hp3⟩ :=
          readLoop_spec (bound + 1 - v0) bound v0 (le_refl _) t1 idx (l + 1) br1 n t' br' h
        intro v hv
        rcases hp3 with ⟨hn1, _⟩ | ⟨hn1, hgt⟩
        · rw [hn1] at hv; exact absurd hv (by simp)
        · rw [hn1] at hv
          simp only [TagTreeNode.AtLeast.injEq] at hv
          omega

theorem rub_good : ∀ (level : Nat) (t : TagTreeDecoder) (idx : I2) (bound : Nat)
    (br : BitReader) (n : TagTreeNode) (t' : TagTreeDecoder) (br' : BitReader),
    read_until_bound level t idx bound br = Except.ok (n, t', br') →
    goodState bound t →
    goodState bound t' ∧ (∀ v, n = TagTreeNode.Value v → v ≤ bound) := by
  intro level
  induction level with
  | zero =>
    intro t idx bound br n t' br' h hg
    rw [read_until_bound.eq_def] at h
    split at h
    · next v0 heq =>
      simp only [Except.ok.injEq, Prod.mk.injEq] at h
      rw [← h.2.1]
      refine ⟨hg, fun v hv => ?_⟩
      rw [← h.1] at hv
      simp only [TagTreeNode.Value.injEq] at hv
      subst hv
      exact goodState_node hg heq
    · next v0 heq =>
      obtain ⟨p, hp1, hp2, hp3⟩ :=
        readLoop_spec (bound + 1 - v0) bound v0 (le_refl _) t idx 0 br n t' br' h
      rw [hp2]
      rcases hp3 with ⟨hn1, hle⟩ | ⟨hn1, hgt⟩
      · subst hn1
        refine ⟨goodState_setNode hg ?_, fun v hv => ?_⟩
        · intro v hv
          simp only [TagTreeNode.Value.injEq] at hv
          omega
        · simp only [TagTreeNode.Value.injEq] at hv
          omega
      · subst hn1
        exact ⟨goodState_setNode hg (fun v hv => absurd hv (by simp)),
          fun v hv => absurd hv (by simp)⟩
    · exact absurd h (by simp)
    · next l0 heq1 heq2 => exact absurd heq2 (by omega)
  | succ l ih =>
    intro t idx bound br n t' br' h hg
    rw [read_until_bound.eq_def] at h
    split at h
    · next v0 heq =>
      simp only [Except.ok.injEq, Prod.mk.injEq] at h
      rw [← h.2.1]
      refine ⟨hg, fun v hv => ?_⟩
      rw [← h.1] at hv
      simp only [TagTreeNode.Value.injEq] at hv
      subst hv
      exact goodState_node hg heq
    · next v0 heq =>
      obtain ⟨p, hp1, hp2, hp3⟩ :=
        readLoop_spec (bound + 1 - v0) bound v0 (le_refl _) t idx (l + 1) br n t' br' h
      rw [hp2]
      rcases hp3 with ⟨hn1, hle⟩ | ⟨hn1, hgt⟩
      · subst hn1
        refine ⟨goodState_setNode hg ?_, fun v hv => ?_⟩
        · intro v hv
          simp only [TagTreeNode.Value.injEq] at hv
          omega
        · simp only [TagTreeNode.Value.injEq] at hv
          omega
      · subst hn1
        exact ⟨goodState_setNode hg (fun v hv => absurd hv (by simp)),
          fun v hv => absurd hv (by simp)⟩
    · next heq1 heq2 => exact absurd heq2 (by omega)
    · next l0 heq1 heq2 =>
      have hl0 : l0 = l := by omega
      rw [hl0] at h
      split at h
      · exact absurd h (by simp)
      · exact absurd h (by simp)
      · next v0 t1 br1 heq3 =>
        split at h
        · simp only [Except.ok.injEq, Prod.mk.injEq] at h
          rw [← h.2.1]
          refine ⟨((ih t _ bound br _ t1 br1 heq3) hg).1, fun v hv => ?_⟩
          rw [← h.1] at hv
          exact absurd hv (by simp)
        · exact absurd h (by simp)
      · next v0 t1 br1 heq3 =>
        have hg1 := ((ih t _ bound br _ t1 br1 heq3) hg).1
        obtain ⟨p, hp1, hp2, hp3⟩ :=
          readLoop_spec (bound + 1 - v0) bound v0 (le_refl _) t1 idx (l + 1) br1 n t' br' h
        rw [hp2]
        rcases hp3 with ⟨hn1, hle⟩ | ⟨hn1, hgt⟩
        · subst hn1
          refine ⟨goodState_setNode hg1 ?_, fun v hv => ?_⟩
          · intro v hv
            simp only [TagTreeNode.Value.injEq] at hv
            omega
          · simp only [TagTreeNode.Value.injEq] at hv
            omega
        · subst hn1
          exact ⟨goodState_setNode hg1 (fun v hv => absurd hv (by simp)),
            fun v hv => absurd hv (by simp)⟩

theorem rub_no_assert : ∀ (level : Nat) (t : TagTreeDecoder) (idx : I2) (bound : Nat)
    (br : BitReader),
    read_until_bound level t idx bound br ≠ Except.error TTErr.assertFailed := by
  intro level
  induction level with
  | zero =>
    intro t idx bound br h
    rw [read_until_bound.eq_def] at h
    split at h
    · exact absurd h (by simp)
    · next v heq =>
      have := readLoop_error (bound + 1 - v) bound v (le_refl _) t idx 0 br _ h
      exact absurd this (by simp)
    · simp only [Except.error.injEq] at h
      exact absurd h (by simp)
    · next l0 heq1 heq2 => exact absurd heq2 (by omega)
  | succ l ih =>
    intro t idx bound br h
    rw [read_until_bound.eq_def] at h
    split at h
    · exact absurd h (by simp)
    · next v heq =>
      have := readLoop_error (bound + 1 - v) bound v (le_refl _) t idx (l + 1) br _ h
      exact absurd this (by simp)
    · next heq1 heq2 => exact absurd heq2 (by omega)
    · next l0 heq1 heq2 =>
      have hl0 : l0 = l := by omega
      rw [hl0] at h
      split at h
      · next e heq3 =>
        simp only [Except.error.injEq] at h
        rw [h] at heq3
        exact ih t _ bound br heq3
      · simp only [Except.error.injEq] at h
        exact absurd h (by simp)
      · next v t1 br1 heq3 =>
        split at h
        · exact absurd h (by simp)
        · next hngt =>
          exact hngt (rub_atLeast_gt l t _ bound br _ t1 br1 heq3 v rfl)
      · next v t1 br1 heq3 =>
        have := readLoop_error (bound + 1 - v) bound v (le_refl _) t1 idx (l + 1) br1 _ h
        exact absurd this (by simp)

theorem ancestorIdx_zero (idx : I2) : ancestorIdx idx 0 = idx := by
  simp [ancestorIdx]

theorem ancestorIdx_parent (idx : I2) (k : Nat) :
    ancestorIdx (I2.mk (idx.x / 2) (idx.y / 2)) k = ancestorIdx idx (k + 1) := by
  simp only [ancestorIdx, I2.mk.injEq]
  constructor <;> rw [Nat.div_div_eq_div_mul, pow_succ, mul_comm]

theorem chainValid_parent {t : TagTreeDecoder} {l : Nat} {idx : I2}
    (h : chainValid t (l + 1) idx) :
    chainValid t l (I2.mk (idx.x / 2) (idx.y / 2)) := by
  intro l2 hl2
  have h2 := h l2 (by omega)
  rw [ancestorIdx_parent]
  have he : l + 1 - l2 = l - l2 + 1 := by omega
  rw [← he]
  exact h2

theorem chainValid_self {t : TagTreeDecoder} {l : Nat} {idx : I2}
    (h : chainValid t l idx) : validIdx t l idx := by
  have := h l (le_refl _)
  rwa [Nat.sub_self, ancestorIdx_zero] at this

theorem chainValid_iff_of_shape {t t' : TagTreeDecoder} {l : Nat} {idx : I2}
    (hv : ∀ l2 i2, validIdx t' l2 i2 ↔ validIdx t l2 i2)
    (h : chainValid t l idx) : chainValid t' l idx := by
  intro l2 hl2
  exact (hv l2 _).mpr (h l2 hl2)

theorem query_of_value {t : TagTreeDecoder} {idx : I2} {level v : Nat}
    (h : t.node idx level = TagTreeNode.Value v) :
    query_recursize t level idx = Except.ok (TagTreeNode.Value v) := by
  cases level <;> rw [query_recursize.eq_def, h]

theorem query_of_atLeast {t : TagTreeDecoder} {idx : I2} {level v : Nat}
    (h : t.node idx level = TagTreeNode.AtLeast v) :
    query_recursize t level idx = Except.ok (TagTreeNode.AtLeast v) := by
  cases level <;> rw [query_recursize.eq_def, h]

theorem query_seeParent_succ {t : TagTreeDecoder} {idx : I2} {l : Nat}
    (h : t.node idx (l + 1) = TagTreeNode.SeeParent) :
    query_recursize t (l + 1) idx =
      match query_recursize t l (I2.mk (idx.x / 2) (idx.y / 2)) with
      | Except.error e => Except.error e
      | Except.ok TagTreeNode.SeeParent => Except.error TTErr.panicked
      | Except.ok (TagTreeNode.AtLeast v) => Except.ok (TagTreeNode.AtLeast v)
      | Except.ok (TagTreeNode.Value v) => Except.ok (TagTreeNode.AtLeast v) := by
  rw [query_recursize.eq_def, h]

theorem rub_query : ∀ (level : Nat) (t : TagTreeDecoder) (idx : I2) (bound : Nat)
    (br : BitReader) (n : TagTreeNode) (t' : TagTreeDecoder) (br' : BitReader),
    chainValid t level idx →
    read_until_bound level t idx bound br = Except.ok (n, t', br') →
    query_recursize t' level idx = Except.ok n := by
  intro level
  induction level with
  | zero =>
    intro t idx bound br n t' br' hc h
    rw [read_until_bound.eq_def] at h
    split at h
    · next v heq =>
      simp only [Except.ok.injEq, Prod.mk.injEq] at h
      rw [← h.2.1, ← h.1]
      exact query_of_value heq
    · next v heq =>
      obtain ⟨p, hp1, hp2, hp3⟩ :=
        readLoop_spec (bound + 1 - v) bound v (le_refl _) t idx 0 br n t' br' h
      have hn : t'.node idx 0 = n := by
        rw [hp2]; exact setNode_node_self t idx 0 n (chainValid_self hc)
      rcases hp3 with ⟨hn1, _⟩ | ⟨hn1, _⟩
      · rw [hn1] at hn ⊢; exact query_of_value hn
      · rw [hn1] at hn ⊢; exact query_of_atLeast hn
    · exact absurd h (by simp)
    · next l0 heq1 heq2 => exact absurd heq2 (by omega)
  | succ l ih =>
    intro t idx bound br n t' br' hc h
    rw [read_until_bound.eq_def] at h
    split at h
    · next v heq =>
      simp only [Except.ok.injEq, Prod.mk.injEq] at h
      rw [← h.2.1, ← h.1]
      exact query_of_value heq
    · next v heq =>
      obtain ⟨p, hp1, hp2, hp3⟩ :=
        readLoop_spec (bound + 1 - v) bound v (le_refl _) t idx (l + 1) br n t' br' h
      have hn : t'.node idx (l + 1) = n := by
        rw [hp2]; exact setNode_node_self t idx (l + 1) n (chainValid_self hc)
      rcases hp3 with ⟨hn1, _⟩ | ⟨hn1, _⟩
      · rw [hn1] at hn ⊢; exact query_of_value hn
      · rw [hn1] at hn ⊢; exact query_of_atLeast hn
    · next heq1 heq2 => exact absurd heq2 (by omega)
    · next l0 heq1 heq2 =>
      have hl0 : l0 = l := by omega
      rw [hl0] at h
      split at h
      · exact absurd h (by simp)
      · exact absurd h (by simp)
      · next v t1 br1 heq3 =>
        split at h
        · next hgt =>
          simp only [Except.ok.injEq, Prod.mk.injEq] at h
          have hq1 := ih t _ bound br _ t1 br1 (chainValid_parent hc) heq3
          have hleaf : t1.node idx (l + 1) = TagTreeNode.SeeParent := by
            rw [rub_levels l t _ bound br _ t1 br1 heq3 idx (l + 1) (by omega)]
            exact heq1
          rw [← h.2.1, ← h.1]
          rw [query_seeParent_succ hleaf, hq1]
        · exact absurd h (by simp)
      · next v t1 br1 heq3 =>
        have hq1 := ih t _ bound br _ t1 br1 (chainValid_parent hc) heq3
        obtain ⟨p, hp1, hp2, hp3⟩ :=
          readLoop_spec (bound + 1 - v) bound v (le_refl _) t1 idx (l + 1) br1 n t' br' h
        have hvalid1 : validIdx t1 (l + 1) idx := by
          have := (rub_shape l t _ bound br _ t1 br1 heq3).2 (l + 1) idx
          exact this.mpr (chainValid_self hc)
        have hn : t'.node idx (l + 1) = n := by
          rw [hp2]; exact setNode_node_self t1 idx (l + 1) n hvalid1
        rcases hp3 with ⟨hn1, _⟩ | ⟨hn1, _⟩
        · rw [hn1] at hn ⊢; exact query_of_value hn
        · rw [hn1] at hn ⊢; exact query_of_atLeast hn

theorem rub_of_value {t : TagTreeDecoder} {idx : I2} {level v : Nat}
    (h : t.node idx level = TagTreeNode.Value v) (bound : Nat) (br : BitReader) :
    read_until_bound level t idx bound br = Except.ok (TagTreeNode.Value v, t, br) := by
  cases level <;> rw [read_until_bound.eq_def, h]

theorem read_of_value {t : TagTreeDecoder} {idx : I2} {v : Nat}
    (h : t.node idx t.max_depth = TagTreeNode.Value v) (br : BitReader) :
    t.read idx br = Except.ok (v, t, br) := by
  rw [TagTreeDecoder.read, rub_of_value h]

theorem runReads_mono : ∀ (reads : List (I2 × Nat)) (t : TagTreeDecoder)
    (br : BitReader) (t' : TagTreeDecoder) (br' : BitReader),
    runReads reads t br = Except.ok (t', br') →
    ∀ i2 l2, nodeLe (t.node i2 l2) (t'.node i2 l2) := by
  intro reads
  induction reads with
  | nil =>
    intro t br t' br' h i2 l2
    rw [runReads] at h
    simp only [Except.ok.injEq, Prod.mk.injEq] at h
    rw [← h.1]
    exact nodeLe_refl _
  | cons p rest ih =>
    intro t br t' br' h i2 l2
    obtain ⟨idx, bound⟩ := p
    rw [runReads] at h
    cases hr : read_until_bound t.max_depth t idx bound br with
    | error e => rw [hr] at h; exact absurd h (by simp)
    | ok trip =>
      obtain ⟨n, t1, br1⟩ := trip
      rw [hr] at h
      exact nodeLe_trans (rub_mono _ t idx bound br n t1 br1 hr i2 l2)
        (ih t1 br1 t' br' h i2 l2)

/-- C4: across any sequence of tag-tree reads on one bit stream, every node's
stored state only evolves forward (`nodeLe`: a lower bound never decreases and
a terminal `Value` never changes again), and once a leaf holds a `Value` a
further `read` of that leaf returns it with the bit reader unchanged, so no
additional bits are consumed (`query_inclusion` takes no reader at all). -/
theorem tag_tree_leaf_monotone (reads : List (I2 × Nat)) (t : TagTreeDecoder)
    (br : BitReader) (t' : TagTreeDecoder) (br' : BitReader)
    (h : runReads reads t br = Except.ok (t', br')) :
    (∀ i2 l2, nodeLe (t.node i2 l2) (t'.node i2 l2)) ∧
    (∀ idx v br2, t'.node idx t'.max_depth = TagTreeNode.Value v →
      t'.read idx br2 = Except.ok (v, t', br2)) :=
  ⟨runReads_mono reads t br t' br' h, fun _ _ br2 hv => read_of_value hv br2⟩

theorem tag_tree_leaf_monotone_witness :
    nodeLe ((TagTreeDecoder.new 1 1).node (I2.mk 0 0) 0)
      ((TagTreeDecoder.mk 0 [(1, [TagTreeNode.Value 1])] 1).node (I2.mk 0 0) 0) ∧
    (TagTreeDecoder.mk 0 [(1, [TagTreeNode.Value 1])] 1).read (I2.mk 0 0)
        (BitReader.mk [] 64 2 2) =
      Except.ok (1, TagTreeDecoder.mk 0 [(1, [TagTreeNode.Value 1])] 1,
        BitReader.mk [] 64 2 2) := by
  have hmain := tag_tree_leaf_monotone [(I2.mk 0 0, 0), (I2.mk 0 0, 1)]
    (TagTreeDecoder.new 1 1) (BitReader.mk [] 64 0 0)
    (TagTreeDecoder.mk 0 [(1, [TagTreeNode.Value 1])] 1) (BitReader.mk [] 64 2 2)
    (by decide)
  exact ⟨hmain.1 (I2.mk 0 0) 0, hmain.2 (I2.mk 0 0) 1 (BitReader.mk [] 64 2 2) (by decide)⟩

/-- C8: on a 2-by-2 tag tree fed the byte `0b0111_0101`, the four row-major
leaf reads yield the values (1, 1, 2, 2) with cumulative bit counts
(3, 4, 6, 8), i.e. they consume (3, 1, 2, 2) bits respectively. -/
theorem tag_tree_example_2x2 :
    ttExample2x2 = Except.ok [(1, 3), (1, 4), (2, 6), (2, 8)] := by decide

/-- C9 (amended): when every `Value` already stored in the tree is at most
`bound` (true along any run with non-decreasing bounds) and the leaf's
ancestor chain is in range, `read_for_inclusion` never fails its internal
assertions, and a successful call settles the bound question: it returns
`true` exactly when the leaf resolves to an exact `Value v` with `v ≤ bound`
and `false` exactly when it resolves to a lower bound `v > bound`.  Without
the `goodState` hypothesis the assertion can fail (see
`read_for_inclusion_assert_fails`). -/
theorem read_for_inclusion_spec (s : InclusionTagTree) (idx : I2) (bound : Nat)
    (br : BitReader) (hg : goodState bound s.tag_tree)
    (hc : chainValid s.tag_tree s.tag_tree.max_depth idx) :
    s.read_for_inclusion idx bound br ≠ Except.error TTErr.assertFailed ∧
    (∀ b s' br', s.read_for_inclusion idx bound br = Except.ok (b, s', br') →
      ∃ n, query_recursize s'.tag_tree s.tag_tree.max_depth idx = Except.ok n ∧
        (b = true ↔ ∃ v, n = TagTreeNode.Value v ∧ v ≤ bound) ∧
        (b = false ↔ ∃ v, n = TagTreeNode.AtLeast v ∧ bound < v)) := by
  cases hr : read_until_bound s.tag_tree.max_depth s.tag_tree idx bound br with
  | error e =>
    simp only [InclusionTagTree.read_for_inclusion, hr]
    refine ⟨fun hco => ?_, fun b s' br' hco => absurd hco (by simp)⟩
    simp only [Except.error.injEq] at hco
    rw [hco] at hr
    exact rub_no_assert _ _ _ _ _ hr
  | ok trip =>
    obtain ⟨n, t1, br1⟩ := trip
    cases n with
    | SeeParent =>
      simp only [InclusionTagTree.read_for_inclusion, hr]
      exact ⟨by simp, fun b s' br' hco => absurd hco (by simp)⟩
    | AtLeast v =>
      have hgt : bound < v := rub_atLeast_gt _ _ _ _ _ _ _ _ hr v rfl
      simp only [InclusionTagTree.read_for_inclusion, hr]
      rw [if_pos (by omega : v > bound)]
      refine ⟨by simp, fun b s' br' hco => ?_⟩
      simp only [Except.ok.injEq, Prod.mk.injEq] at hco
      obtain ⟨hb, hs, hbr⟩ := hco
      refine ⟨TagTreeNode.AtLeast v, ?_, ?_, ?_⟩
      · rw [← hs]
        exact rub_query _ _ _ _ _ _ _ _ hc hr
      · rw [← hb]
        simp
      · rw [← hb]
        simp only [true_iff]
        exact ⟨v, rfl, hgt⟩
    | Value v =>
      have hle : v ≤ bound := (rub_good _ _ _ _ _ _ _ _ hr hg).2 v rfl
      simp only [InclusionTagTree.read_for_inclusion, hr]
      rw [if_pos hle]
      refine ⟨by simp, fun b s' br' hco => ?_⟩
      simp only [Except.ok.injEq, Prod.mk.injEq] at hco
      obtain ⟨hb, hs, hbr⟩ := hco
      refine ⟨TagTreeNode.Value v, ?_, ?_, ?_⟩
      · rw [← hs]
        exact rub_query _ _ _ _ _ _ _ _ hc hr
      · rw [← hb]
        simp only [true_iff]
        exact ⟨v, rfl, hle⟩
      · rw [← hb]
        simp

theorem read_for_inclusion_spec_witness :
    (InclusionTagTree.new 1 1).read_for_inclusion (I2.mk 0 0) 1
        (BitReader.mk [] 64 0 0) ≠ Except.error TTErr.assertFailed := by
  refine (read_for_inclusion_spec (InclusionTagTree.new 1 1) (I2.mk 0 0) 1
    (BitReader.mk [] 64 0 0) ?_ ?_).1
  · intro p hp nd hnd v hv
    have hp2 : p = (1, [TagTreeNode.AtLeast 0]) := by
      simpa [InclusionTagTree.new, TagTreeDecoder.new, newLevels, newLevelsF] using hp
    rw [hp2] at hnd
    simp only [List.mem_singleton] at hnd
    rw [hnd] at hv
    exact absurd hv (by simp)
  · intro l hl
    have hd : (InclusionTagTree.new 1 1).tag_tree.max_depth = 0 := by decide
    rw [hd] at hl
    have hl0 : l = 0 := by omega
    rw [hl0, hd]
    decide

/-- C9, state outside the invariant: a first inclusion read with bound 1
stores `Value 1` at the leaf; a second read of the same leaf with the smaller
bound 0 then fails the source's `assert!(v <= bound)`, so the internal
assertions do not hold unconditionally. -/
theorem read_for_inclusion_assert_fails :
    (do
      let s0 := InclusionTagTree.new 1 1
      let b0 := BitReader.mk [] 64 0 0
      let (_, s1, b1) ← s0.read_for_inclusion (I2.mk 0 0) 1 b0
      let (r2, _, _) ← s1.read_for_inclusion (I2.mk 0 0) 0 b1
      pure r2) = Except.error TTErr.assertFailed := by decide

theorem tmod_lower {a b : ℤ} (hb : 0 < b) : -b < Int.tmod a b := by
  rcases a with m | m <;> rcases b with n | n
  · have h0 : 0 ≤ Int.tmod (Int.ofNat m) (Int.ofNat n) :=
      Int.tmod_nonneg _ (Int.ofNat_nonneg m)
    simp only [Int.ofNat_eq_natCast] at *
    omega
  · rw [Int.negSucc_eq] at hb
    omega
  · have hn : 0 < n := by
      simp only [Int.ofNat_eq_natCast] at hb
      exact_mod_cast hb
    have h1 : (m + 1) % n < n := Nat.mod_lt _ hn
    show -(Int.ofNat n) < Int.tmod (Int.negSucc m) (Int.ofNat n)
    rw [Int.tmod]
    simp only [Int.ofNat_eq_natCast, Nat.succ_eq_add_one]
    omega
  · rw [Int.negSucc_eq] at hb
    omega

theorem tmod_bounds {a b : ℤ} (hb : 0 < b) : -b < Int.tmod a b ∧ Int.tmod a b < b :=
  ⟨tmod_lower hb, Int.tmod_lt_of_pos a hb⟩

theorem tmod_eq_emod_of_nonneg {a b : ℤ} (ha : 0 ≤ a) (hb : 0 ≤ b) :
    Int.tmod a b = a % b :=
  Int.tmod_eq_emod ha hb

/-- C10: for `i0 < i1` the reflected index always lands in `[i0, i1)`, an
index already in range maps to itself, and hence every sample of the
extended signal is a sample of the source slice. -/
theorem pse_o_safe (i i0 i1 : ℤ) (h : i0 < i1) :
    (i0 ≤ pse_o i i0 i1 ∧ pse_o i i0 i1 < i1) ∧
    (i0 ≤ i → i < i1 → pse_o i i0 i1 = i) ∧
    (∀ (y : List ℤ) (l r : ℤ), y.length = (i1 - i0).toNat →
      ∀ z ∈ extend_signal_1d y i0 i1 l r, z ∈ y) := by
  have hlen : i1 - i0 ≠ 0 := by omega
  have hper : (0:ℤ) < 2 * (i1 - i0) := by omega
  have hkey : ∀ j, i0 ≤ pse_o j i0 i1 ∧ pse_o j i0 i1 < i1 := by
    intro j
    have hbj := tmod_bounds (a := j - i0) hper
    have hnnj : (0:ℤ) ≤ Int.tmod (j - i0) (2 * (i1 - i0)) + 2 * (i1 - i0) := by omega
    rw [pse_o]
    simp only [hlen, if_false]
    rw [tmod_eq_emod_of_nonneg hnnj (by omega)]
    have hm := Int.emod_lt_of_pos (Int.tmod (j - i0) (2 * (i1 - i0)) + 2 * (i1 - i0)) hper
    have hm2 := Int.emod_nonneg (Int.tmod (j - i0) (2 * (i1 - i0)) + 2 * (i1 - i0)) (by omega : 2 * (i1 - i0) ≠ 0)
    split <;> omega
  refine ⟨hkey i, fun h1 h2 => ?_, fun y l r hy z hz => ?_⟩
  · rw [pse_o]
    simp only [hlen, if_false]
    rw [tmod_eq_emod_of_nonneg (by omega : (0:ℤ) ≤ i - i0) (by omega)]
    have he : (i - i0) % (2 * (i1 - i0)) = i - i0 := Int.emod_eq_of_lt (by omega) (by omega)
    rw [he]
    rw [tmod_eq_emod_of_nonneg (by omega : (0:ℤ) ≤ i - i0 + 2 * (i1 - i0)) (by omega)]
    have he2 : (i - i0 + 2 * (i1 - i0)) % (2 * (i1 - i0)) = i - i0 := by
      have h3 : i - i0 + 2 * (i1 - i0) = i - i0 + 2 * (i1 - i0) * 1 := by ring
      rw [h3, Int.add_mul_emod_self_left]
      exact he
    rw [he2]
    split <;> omega
  · rw [extend_signal_1d] at hz
    simp only [List.mem_map, List.mem_range] at hz
    obtain ⟨k, _, hk2⟩ := hz
    have hr := hkey ((i0 - l) + k)
    have hidx : (pse_o ((i0 - l) + k) i0 i1 - i0).toNat < y.length := by
      rw [hy]; omega
    rw [← hk2]
    rw [List.getD_eq_getElem?_getD]
    rw [List.getElem?_eq_getElem hidx]
    simp only [Option.getD_some]
    exact List.getElem_mem _


/-- C3 (refuted): the 5-3 reversible forward-then-inverse DWT is not the
identity.  On the 3-by-1 row `[4, 0, 0]` at offset `(0, 0)` with one
decomposition level, `round_trip` returns `[3, -1, 0]`: the decomposition's
even-sample lifting step reads partially updated samples through `pse_o`
edge reflection, so the forward transform computes wrong low-pass values
that the (consistent) inverse does not undo. -/
theorem round_trip_53_not_identity :
    round_trip (Array2D.mk [4, 0, 0] 3 1 0 0) 1 =
      some (Array2D.mk [3, -1, 0] 3 1 0 0) ∧
    Array2D.mk ([3, -1, 0] : List ℤ) 3 1 0 0 ≠ Array2D.mk [4, 0, 0] 3 1 0 0 := by
  constructor
  · decide
  · decide

theorem pse_o_safe_witness :
    (0:ℤ) < 3 ∧ ((0:ℤ) ≤ pse_o 5 0 3 ∧ pse_o 5 0 3 < 3) ∧
      (2:ℤ) ∈ ([1, 2, 3] : List ℤ) := by
  have h := pse_o_safe 5 0 3 (by decide)
  exact ⟨by decide, h.1, h.2.2 [1, 2, 3] 2 2 (by decide) 2 (by decide)⟩


/-- C1 (refuted): `CodeBlockDecoder::decode` hardcodes `let no_passes = 7`
and never reads the pass count supplied to `new`.  On the J.10 LL test
scenario, whose packet header supplies `no_passes = 16`, `decode` stops
after 7 passes having consumed 19 of the coder's 34 entries and leaves
wrong coefficients, while running the same loop for the supplied 16 passes
consumes all 34 entries and produces the intended coefficients. -/
theorem decode_ignores_no_passes :
    j10aCb.no_passes = 16 ∧
    j10aCb.decode j10aMock = decodeLoop 7 State.CleanUp j10aCb j10aMock ∧
    (j10aCb.decode j10aMock).map (fun s => (s.1.coefficientsOut, s.2.index)) =
      Except.ok ([-24, -16, -24, -32, -16], 19) ∧
    (decodeLoop 16 State.CleanUp j10aCb j10aMock).map
        (fun s => (s.1.coefficientsOut, s.2.index)) =
      Except.ok ([-26, -22, -30, -32, -19], 34) ∧
    j10aCb.decode j10aMock ≠ decodeLoop 16 State.CleanUp j10aCb j10aMock := by
  refine ⟨by decide, rfl, by decide, by decide, by decide⟩

/-- C2 (refuted): in the cleanup pass's run mode the source skips the whole
column when the RUN_LEN bit is 1 (consuming only that one bit) and decodes
the two UNIFORM bits when the RUN_LEN bit is 0 (then marking the selected
coefficient significant) — the opposite polarity of the claim.  Shown on a
1-by-4 LH strip: answer 1 leaves every coefficient insignificant after one
decode; answers 0,0,1 consume the two UNIFORM entries and make the
coefficient at strip offset 1 significant. -/
theorem cleanup_run_bit_inverted :
    j10bCb.pass_cleanup (MockCoder.mk [(RUN_LEN, 1)] 0) =
      Except.ok (j10bCb, MockCoder.mk [(RUN_LEN, 1)] 1) ∧
    (j10bCb.pass_cleanup (MockCoder.mk
        [(RUN_LEN, 0), (UNIFORM, 0), (UNIFORM, 1), (9, 0), (3, 0), (0, 0)] 0)).map
        (fun s => (s.1.coefficients, s.2.index)) =
      Except.ok ([Coeff.Insignificant 255, Coeff.Significant 4 false,
        Coeff.Insignificant 255, Coeff.Insignificant 255], 6) := by
  refine ⟨by decide, by decide⟩

end Jpc

namespace Jp2

/-- A successful `SignatureBox::decode` read exactly the magic bytes. -/
theorem SignatureBox.decode_magic {b b' : SignatureBox} {r r' : Reader}
    (h : SignatureBox.decode b r = Except.ok (b', r')) :
    r.read_exact 4 = Except.ok (SIGNATURE_MAGIC, r') := by
  rw [SignatureBox.decode] at h
  cases hr : r.read_exact 4 with
  | error e =>
    rw [hr] at h
    simp only [Except.instMonad, Except.bind] at h
    exact absurd h (by simp)
  | ok p =>
    obtain ⟨buffer, r1⟩ := p
    rw [hr] at h
    simp only [Except.instMonad, Except.bind] at h
    split at h
    · exact absurd h (by simp)
    · next hb =>
      simp only [Except.ok.injEq, Prod.mk.injEq] at h
      simp only [ne_eq, Decidable.not_not] at hb
      rw [hb, h.2]

/-- A successful `FileTypeBox::decode` fixes the brand to `jp2 ` and puts
`jp2 ` in the compatibility list. -/
theorem FileTypeBox.decode_spec {b b' : FileTypeBox} {r r' : Reader}
    (h : FileTypeBox.decode b r = Except.ok (b', r')) :
    b'.brand = BRAND_JP2 ∧ BRAND_JP2 ∈ b'.compatibility_list := by
  rw [FileTypeBox.decode] at h
  cases hr : r.read_exact 4 with
  | error e =>
    rw [hr] at h
    simp only [Except.instMonad, Except.bind] at h
    exact absurd h (by simp)
  | ok p =>
    obtain ⟨brand, r1⟩ := p
    rw [hr] at h
    simp only [Except.instMonad, Except.bind] at h
    split at h
    · exact absurd h (by simp)
    · split at h
      · exact absurd h (by simp)
      · next hjpx hjp2 =>
        simp only [ne_eq, Decidable.not_not] at hjp2
        cases hm : r1.read_exact 4 with
        | error e => rw [hm] at h; exact absurd h (by simp)
        | ok q =>
          obtain ⟨minv, r2⟩ := q
          rw [hm] at h
          simp only at h
          split at h
          · exact absurd h (by simp)
          · cases hc : readCLs ((b.length - 8) / 4) b.compatibility_list r2 with
            | error e => rw [hc] at h; exact absurd h (by simp)
            | ok q2 =>
              obtain ⟨cls, r3⟩ := q2
              rw [hc] at h
              simp only at h
              split at h
              · exact absurd h (by simp)
              · next hmem =>
                simp only [not_not] at hmem
                simp only [Except.ok.injEq, Prod.mk.injEq] at h
                rw [← h.1]
                exact ⟨hjp2, hmem⟩

/-- A successful `HeaderSuperBox::decode` collected at least one colour
specification box (the final `BoxMalformed` check). -/
theorem HeaderSuperBox.decode_colr {b b' : HeaderSuperBox} {r r' : Reader}
    (h : HeaderSuperBox.decode b r = Except.ok (b', r')) :
    b'.colour_specification_boxes ≠ [] := by
  rw [HeaderSuperBox.decode] at h
  cases hd : decode_box_header r with
  | error e =>
    rw [hd] at h
    simp only [Except.instMonad, Except.bind] at h
    exact absurd h (by simp)
  | ok p =>
    obtain ⟨hdr, r1⟩ := p
    rw [hd] at h
    simp only [Except.instMonad, Except.bind] at h
    split at h
    · exact absurd h (by simp)
    · cases hi : ImageHeaderBox.decode
        { ImageHeaderBox.default with length := hdr.box_length, offset := r1.stream_position } r1 with
      | error e => rw [hi] at h; exact absurd h (by simp)
      | ok q =>
        obtain ⟨ihb, r2⟩ := q
        rw [hi] at h
        simp only at h
        cases hl : headerLoop (r.data.length + 2) { b with image_header_box := ihb } r2 with
        | error e => rw [hl] at h; exact absurd h (by simp)
        | ok q2 =>
          obtain ⟨b1, r3⟩ := q2
          rw [hl] at h
          simp only at h
          split at h
          · exact absurd h (by simp)
          · next hne =>
            simp only [Except.ok.injEq, Prod.mk.injEq] at h
            rw [← h.1]
            exact hne

theorem jp2Loop_inv : ∀ (fuel : Nat) (st : JP2LoopState) (r : Reader)
    (st2 : JP2LoopState) (r2 : Reader),
    jp2Loop fuel st r = Except.ok (st2, r2) → jp2Inv st → jp2Inv st2 := by
  intro fuel
  induction fuel with
  | zero =>
    intro st r st2 r2 h hinv
    rw [jp2Loop] at h
    exact absurd h (by simp)
  | succ n ih =>
    intro st r st2 r2 h hinv
    rw [jp2Loop] at h
    cases hd : decode_box_header r with
    | error e =>
      rw [hd] at h
      cases e <;> simp only [Except.instMonad, Except.bind] at h
      all_goals first
        | (simp only [Except.ok.injEq, Prod.mk.injEq] at h
           rw [← h.1]
           exact hinv)
        | exact absurd h (by simp)
    | ok p =>
      obtain ⟨hdv, r1⟩ := p
      rw [hd] at h
      simp only [Except.instMonad, Except.bind] at h
      split at h
      · -- Header
        cases hx : HeaderSuperBox.decode (HeaderSuperBox.mk hdv.box_length
            r1.stream_position ImageHeaderBox.default none [] none none none none) r1 with
        | error e => rw [hx] at h; exact absurd h (by simp)
        | ok q =>
          obtain ⟨hb, rq⟩ := q
          rw [hx] at h
          simp only at h
          refine ih _ _ _ _ h ⟨fun _ => rfl, fun hb2 he => ?_⟩
          simp only [Option.some.injEq] at he
          rw [← he]
          exact HeaderSuperBox.decode_colr hx
      · -- IntellectualProperty
        cases hx : IntellectualPropertyBox.decode (IntellectualPropertyBox.mk hdv.box_length
            r1.stream_position (List.replicate hdv.box_length 0)) r1 with
        | error e => rw [hx] at h; exact absurd h (by simp)
        | ok q =>
          obtain ⟨ipb, rq⟩ := q
          rw [hx] at h
          simp only at h
          exact ih _ _ _ _ h hinv
      · -- Xml
        cases hx : XMLBox.decode (XMLBox.mk hdv.box_length r1.stream_position []) r1 with
        | error e => rw [hx] at h; exact absurd h (by simp)
        | ok q =>
          obtain ⟨xb, rq⟩ := q
          rw [hx] at h
          simp only at h
          exact ih _ _ _ _ h hinv
      · -- Uuid
        cases hx : UUIDBox.decode (UUIDBox.mk hdv.box_length r1.stream_position [] []) r1 with
        | error e => rw [hx] at h; exact absurd h (by simp)
        | ok q =>
          obtain ⟨ub, rq⟩ := q
          rw [hx] at h
          simp only at h
          exact ih _ _ _ _ h hinv
      · -- UUIDInfo
        exact ih _ _ _ _ h hinv
      · -- UUIDList
        cases hx : UUIDListBox.decode (UUIDListBox.mk hdv.box_length r1.stream_position []) r1 with
        | error e => rw [hx] at h; exact absurd h (by simp)
        | ok q =>
          obtain ⟨ulb, rq⟩ := q
          rw [hx] at h
          simp only at h
          split at h
          · exact ih _ _ _ _ h hinv
          · exact absurd h (by simp)
      · -- DataEntryURL
        split at h
        · exact absurd h (by simp)
        · cases hx : DataEntryURLBox.decode (DataEntryURLBox.mk hdv.box_length
              r1.stream_position [0] [0, 0, 0] []) r1 with
          | error e => rw [hx] at h; exact absurd h (by simp)
          | ok q =>
            obtain ⟨dub, rq⟩ := q
            rw [hx] at h
            simp only at h
            split at h
            · exact ih _ _ _ _ h hinv
            · exact absurd h (by simp)
      · -- ContiguousCodestream
        split at h
        · exact absurd h (by simp)
        · next hb0 hsome =>
          cases hx : ContiguousCodestreamBox.decode (ContiguousCodestreamBox.mk hdv.box_length
              r1.stream_position) r1 with
          | error e => rw [hx] at h; exact absurd h (by simp)
          | ok q =>
            obtain ⟨ccb, rq⟩ := q
            rw [hx] at h
            simp only at h
            refine ih _ _ _ _ h ⟨fun _ => ?_, hinv.2⟩
            rw [hsome]
            rfl
      · -- catch-all panic
        exact absurd h (by simp)

/-- What a successful `decode_jp2` guarantees about its input and output:
the first box header carries the signature type and is followed by the
exact magic bytes, the second box header carries the file-type type, the
returned file-type box has brand `jp2 ` with `jp2 ` in its compatibility
list, codestream boxes imply a collected header, and a collected header
holds at least one colour specification. -/
theorem decode_jp2_ok_props (r : Reader) (f : JP2File) (rEnd : Reader)
    (h : decode_jp2 r = Except.ok (f, rEnd)) :
    (∃ hd1 ra rb, decode_box_header r = Except.ok (hd1, ra) ∧
      hd1.box_type = BOX_TYPE_SIGNATURE ∧
      ra.read_exact 4 = Except.ok (SIGNATURE_MAGIC, rb) ∧
      ∃ hd2 rc, decode_box_header rb = Except.ok (hd2, rc) ∧
        hd2.box_type = BOX_TYPE_FILE_TYPE) ∧
    (∃ ftb, f.file_type = some ftb ∧ ftb.brand = BRAND_JP2 ∧
      BRAND_JP2 ∈ ftb.compatibility_list) ∧
    (f.contiguous_codestreams ≠ [] → f.header.isSome = true) ∧
    (∀ hb, f.header = some hb → hb.colour_specification_boxes ≠ []) := by
  rw [decode_jp2] at h
  cases h1 : decode_box_header r with
  | error e =>
    rw [h1] at h
    simp only [Except.instMonad, Except.bind] at h
    exact absurd h (by simp)
  | ok p1 =>
    obtain ⟨hd1, r1⟩ := p1
    rw [h1] at h
    simp only [Except.instMonad, Except.bind] at h
    split at h
    · exact absurd h (by simp)
    · next hsig =>
      simp only [ne_eq, Decidable.not_not] at hsig
      cases h2 : SignatureBox.decode (SignatureBox.mk hd1.box_length r1.stream_position) r1 with
      | error e => rw [h2] at h; exact absurd h (by simp)
      | ok p2 =>
        obtain ⟨sb, r2⟩ := p2
        rw [h2] at h
        simp only at h
        cases h3 : decode_box_header r2 with
        | error e => rw [h3] at h; exact absurd h (by simp)
        | ok p3 =>
          obtain ⟨hd2, r3⟩ := p3
          rw [h3] at h
          simp only at h
          split at h
          · exact absurd h (by simp)
          · next hft =>
            simp only [ne_eq, Decidable.not_not] at hft
            cases h4 : FileTypeBox.decode (FileTypeBox.mk hd2.box_length
                r3.stream_position [0, 0, 0, 0] [0, 0, 0, 0] []) r3 with
            | error e => rw [h4] at h; exact absurd h (by simp)
            | ok p4 =>
              obtain ⟨ftb, r4⟩ := p4
              rw [h4] at h
              simp only at h
              cases h5 : jp2Loop (r.data.length + 2) (JP2LoopState.mk none [] none [] [] [] none) r4 with
              | error e => rw [h5] at h; exact absurd h (by simp)
              | ok p5 =>
                obtain ⟨stv, r5⟩ := p5
                rw [h5] at h
                simp only [Except.ok.injEq, Prod.mk.injEq] at h
                have hinv : jp2Inv stv := by
                  refine jp2Loop_inv _ _ _ _ _ h5 ⟨fun hne => absurd rfl hne, fun hb he => ?_⟩
                  exact absurd he (by simp)
                obtain ⟨hf, hr5⟩ := h
                refine ⟨⟨hd1, r1, r2, rfl, hsig, SignatureBox.decode_magic h2,
                  hd2, r3, h3, hft⟩, ⟨ftb, ?_, FileTypeBox.decode_spec h4⟩, ?_, ?_⟩
                · rw [← hf]
                · rw [← hf]
                  exact hinv.1
                · rw [← hf]
                  exact hinv.2

/-- C6 (amended): whenever `decode_jp2` succeeds, the first box header
carried the signature type followed by the exact magic `0D 0A 87 0A`, the
second box header carried the file-type type, the returned file-type box
has brand `jp2 ` with `jp2 ` in its compatibility list, any collected
codestream box was preceded by a JP2 header, and the collected header
holds at least one colour specification - so a file violating any of
these is rejected.  The declared 12-byte signature length is NOT among
the checks (see `oversized_signature_accepted`); the concrete conjuncts
show each validation firing and a well-formed file passing. -/
theorem decode_jp2_ok_validations :
    (∀ (r : Reader) (f : JP2File) (rEnd : Reader),
      decode_jp2 r = Except.ok (f, rEnd) →
      (∃ hd1 ra rb, decode_box_header r = Except.ok (hd1, ra) ∧
        hd1.box_type = BOX_TYPE_SIGNATURE ∧
        ra.read_exact 4 = Except.ok (SIGNATURE_MAGIC, rb) ∧
        ∃ hd2 rc, decode_box_header rb = Except.ok (hd2, rc) ∧
          hd2.box_type = BOX_TYPE_FILE_TYPE) ∧
      (∃ ftb, f.file_type = some ftb ∧ ftb.brand = BRAND_JP2 ∧
        BRAND_JP2 ∈ ftb.compatibility_list) ∧
      (f.contiguous_codestreams ≠ [] → f.header.isSome = true) ∧
      (∀ hb, f.header = some hb → hb.colour_specification_boxes ≠ [])) ∧
    (decode_jp2 (Reader.mk validJp2 0)).isOk = true ∧
    decode_jp2 (Reader.mk badMagicJp2 0) = Except.error JErr.invalidSignature ∧
    decode_jp2 (Reader.mk notSigFirstJp2 0) = Except.error JErr.boxUnexpected ∧
    decode_jp2 (Reader.mk notFtypSecondJp2 0) = Except.error JErr.boxUnexpected ∧
    decode_jp2 (Reader.mk badBrandJp2 0) = Except.error JErr.invalidBrand ∧
    decode_jp2 (Reader.mk noCompatJp2 0) = Except.error JErr.notCompatible ∧
    decode_jp2 (Reader.mk codestreamBeforeHeaderJp2 0) = Except.error JErr.boxUnexpected ∧
    decode_jp2 (Reader.mk noColrJp2 0) = Except.error JErr.boxMalformed := by
  refine ⟨decode_jp2_ok_props, by decide, by decide, by decide, by decide, by decide,
    by decide, by decide, by decide⟩

/-- C7 (amended): an unknown box type is a warning only inside the JP2
header superbox, whose loop logs it and stops scanning (returning with
the reader right after the 8 header bytes, the decode continuing); at the
top level of the file the very same situation falls into `decode_jp2`'s
catch-all `panic!` arm and aborts the decode.  Both facts are proved for
every reader state and every box type the table maps to `Unknown`;
the concrete conjunct shows a full decode surviving an unknown box inside
the header. -/
theorem unknown_box_handling :
    (∀ (fuel : Nat) (st : JP2LoopState) (r : Reader) (hd : BoxHeader) (r1 : Reader),
      decode_box_header r = Except.ok (hd, r1) →
      BoxTypes.new hd.box_type = BoxTypes.Unknown →
      jp2Loop (fuel + 1) st r = Except.error JErr.panicked) ∧
    (∀ (fuel : Nat) (b : HeaderSuperBox) (r : Reader) (hd : BoxHeader) (r1 : Reader),
      decode_box_header r = Except.ok (hd, r1) →
      BoxTypes.new hd.box_type = BoxTypes.Unknown →
      headerLoop (fuel + 1) b r = Except.ok (b, r1)) ∧
    (decode_jp2 (Reader.mk headerUnknownJp2 0)).isOk = true := by
  refine ⟨fun fuel st r hd r1 hh hu => ?_, fun fuel b r hd r1 hh hu => ?_, by decide⟩
  · rw [jp2Loop, hh]
    simp only [Except.instMonad, Except.bind, hu]
  · rw [headerLoop, hh]
    simp only [Except.instMonad, Except.bind, hu]

/-- C6, the length check that is missing: the same file with the
signature box header declaring a box length of 16 instead of the
mandatory 12 decodes successfully, because `SignatureBox::decode` reads
only the four magic bytes and nothing ever compares the declared length
against 12. -/
theorem oversized_signature_accepted :
    oversizedSigJp2.take 4 = [0, 0, 0, 16] ∧
    (decode_jp2 (Reader.mk oversizedSigJp2 0)).isOk = true := by
  refine ⟨by decide, by decide⟩

/-- C7, the top-level behaviour: an empty box of the unknown type `abcd`
placed between the file type box and the JP2 header hits the catch-all
`panic!` arm of `decode_jp2`'s loop, aborting the decode instead of
logging and skipping. -/
theorem top_level_unknown_box_panics :
    BoxTypes.new [97, 98, 99, 100] = BoxTypes.Unknown ∧
    decode_jp2 (Reader.mk topLevelUnknownJp2 0) = Except.error JErr.panicked := by
  refine ⟨by decide, by decide⟩

end Jp2
